import Mathlib

/-!
Verification of the mapviewer-gl ingestion, styling and filtering core.

This file is a shallow embedding, in Lean 4, of the data model and the
operations of the MapViewerGL component (src/unnamed/part_003) and of the
filter-compilation code in src/src/components/FilterModal.tsx, together with
theorems settling the specification claims about them.

Modelling conventions:
- JavaScript numbers are modelled as exact rationals.  NaN is modelled by
  Option.none where the code can produce it (parseFloat failures, missing
  properties coerced to numbers).  IEEE rounding is idealised away; the spec
  states its formulas over exact arithmetic.  Infinity literals inside CSV
  cells are unmodelled (they are treated as a failed parse, which is
  observationally equal for every range check performed by the code).
- JavaScript strings are Lean strings; the string operations used by the
  source (trim, toLowerCase, startsWith, includes, lexicographic comparison)
  are re-implemented below on the character list so that they evaluate by
  kernel reduction.  toLowerCase is modelled on ASCII letters only, which is
  what every claim exercises.
- Property bags are association lists from column name to value.  The key
  set of the list coincides with the key set of the JavaScript object; the
  claims never build an object twice from the same duplicated header, so
  first-key lookup agrees with JavaScript lookup everywhere it is used.
-/

namespace MapViewerGL

/-- The white space characters skipped by the JavaScript number conversions
and by String.prototype.trim as exercised here. -/
def isJsSpace (c : Char) : Bool :=
  c == ' ' || c == '\t' || c == '\n' || c == '\r'

/-- JavaScript String.prototype.trim. -/
def jsTrim (s : String) : String :=
  String.mk (((s.data.dropWhile isJsSpace).reverse.dropWhile isJsSpace).reverse)

/-- ASCII lower-casing of one character, as String.prototype.toLowerCase
performs on the ASCII range. -/
def jsCharLower (c : Char) : Char :=
  if 'A' ≤ c ∧ c ≤ 'Z' then Char.ofNat (c.toNat + 32) else c

/-- JavaScript String.prototype.toLowerCase (ASCII fragment). -/
def jsToLower (s : String) : String :=
  String.mk (s.data.map jsCharLower)

/-- List-level substring test backing String.prototype.includes. -/
def listContainsSub (l pat : List Char) : Bool :=
  (List.range (l.length + 1)).any (fun i => pat.isPrefixOf (l.drop i))

/-- JavaScript String.prototype.includes. -/
def jsIncludes (s pat : String) : Bool :=
  listContainsSub s.data pat.data

/-- JavaScript String.prototype.startsWith. -/
def jsStartsWith (s pat : String) : Bool :=
  pat.data.isPrefixOf s.data

/-- Strict lexicographic order on character lists by code point, the order
JavaScript uses for the relational operators on strings. -/
def charListLt : List Char → List Char → Bool
  | [], [] => false
  | [], _ :: _ => true
  | _ :: _, [] => false
  | a :: as, b :: bs =>
    if a.toNat < b.toNat then true
    else if b.toNat < a.toNat then false
    else charListLt as bs

/-- JavaScript string comparison a < b. -/
def jsStrLt (a b : String) : Bool := charListLt a.data b.data

/-- JavaScript string comparison a <= b, which on the total string order is
the negation of b < a. -/
def jsStrLe (a b : String) : Bool := !(jsStrLt b a)

/-- Digit run at the front of a character list, with the rest. -/
def takeDigits (cs : List Char) : List Char × List Char :=
  (cs.takeWhile Char.isDigit, cs.dropWhile Char.isDigit)

/-- Numeric value of a digit run. -/
def digitsToNat (ds : List Char) : ℕ :=
  ds.foldl (fun a c => 10 * a + (c.toNat - 48)) 0

/-- Exponent clause of a JavaScript number literal: e or E, an optional
sign and at least one digit; when no digit follows, nothing is consumed. -/
def parseExponentAfterE (rest orig : List Char) : ℤ × List Char :=
  let (sgn, r) : ℤ × List Char :=
    match rest with
    | '-' :: t => (-1, t)
    | '+' :: t => (1, t)
    | _ => (1, rest)
  let (ds, r2) := takeDigits r
  if ds.isEmpty then (0, orig) else (sgn * (digitsToNat ds : ℤ), r2)

/-- Exponent clause dispatcher. -/
def parseExponent (cs : List Char) : ℤ × List Char :=
  match cs with
  | 'e' :: rest => parseExponentAfterE rest cs
  | 'E' :: rest => parseExponentAfterE rest cs
  | _ => (0, cs)

/-- Unsigned decimal literal: digits, an optional point with more digits,
and an optional exponent; fails when no digit is present at all.  Returns
the value together with the unconsumed suffix.  The value of the literal
with integer digits I, fraction digits F (f of them) and exponent e is
digits(I ++ F) * 10 ^ (e - f); it is assembled here through Rat.divInt on
natural-number arithmetic so that concrete instances reduce inside the
kernel. -/
def parseDecimal (cs : List Char) : Option (ℚ × List Char) :=
  let (intDs, r1) := takeDigits cs
  let (fracDs, r2) :=
    match r1 with
    | '.' :: rest => takeDigits rest
    | _ => ([], r1)
  if intDs.isEmpty && fracDs.isEmpty then none
  else
    let mantissa := digitsToNat (intDs ++ fracDs)
    let (e, r3) := parseExponent r2
    let k : ℤ := e - fracDs.length
    some (Rat.divInt ((mantissa * 10 ^ k.toNat : ℕ) : ℤ) ((10 ^ (-k).toNat : ℕ) : ℤ), r3)

/-- JavaScript parseFloat on a string: skip leading white space, an optional
sign, then the longest decimal prefix; none models NaN. -/
def jsParseFloat (s : String) : Option ℚ :=
  let cs := s.data.dropWhile isJsSpace
  let (neg, cs1) : Bool × List Char :=
    match cs with
    | '-' :: rest => (true, rest)
    | '+' :: rest => (false, rest)
    | _ => (false, cs)
  match parseDecimal cs1 with
  | none => none
  | some (v, _) => some (if neg then -v else v)

/-- JavaScript Number() applied to a string (the ToNumber coercion): the
whole trimmed string must be a decimal literal, the empty string is 0, and
anything else is NaN (none).  Hexadecimal and Infinity forms are out of the
claims' scope and unmodelled. -/
def jsNumber (s : String) : Option ℚ :=
  let cs := (s.data.dropWhile isJsSpace).reverse.dropWhile isJsSpace |>.reverse
  if cs.isEmpty then some 0
  else
    let (neg, cs1) : Bool × List Char :=
      match cs with
      | '-' :: rest => (true, rest)
      | '+' :: rest => (false, rest)
      | _ => (false, cs)
    match parseDecimal cs1 with
    | some (v, []) => some (if neg then -v else v)
    | _ => none

/-- Option-level comparisons mirroring JavaScript comparisons in which either
side may be NaN: any comparison with NaN is false. -/
def optLt (a b : Option ℚ) : Bool :=
  match a, b with
  | some x, some y => x < y
  | _, _ => false

/-- Option-level less-or-equal, false on NaN. -/
def optLe (a b : Option ℚ) : Bool :=
  match a, b with
  | some x, some y => x ≤ y
  | _, _ => false

/-- Option-level numeric equality, false on NaN (NaN === NaN is false). -/
def optEq (a b : Option ℚ) : Bool :=
  match a, b with
  | some x, some y => x == y
  | _, _ => false

/-- A JavaScript property value as it occurs in this program: a string (every
CSV-derived property), a number, or null (GeoJSON properties). -/
inductive JsVal where
  | str (s : String)
  | num (q : ℚ)
  | null
deriving DecidableEq, Repr

/-- Decimal digits of a natural number, via structural fuel so that concrete
instances reduce in the kernel. -/
def natToCharsAux : ℕ → ℕ → List Char
  | 0, _ => []
  | fuel + 1, n => if n = 0 then [] else natToCharsAux fuel (n / 10) ++ [Char.ofNat (48 + n % 10)]

/-- Rendering of a natural number in base 10. -/
def natToString (n : ℕ) : String :=
  if n = 0 then "0" else String.mk (natToCharsAux (n + 1) n)

/-- Rendering of an integer in base 10. -/
def intToString (i : ℤ) : String :=
  if 0 ≤ i then natToString i.toNat else "-" ++ natToString (-i).toNat

/-- Rendering of a JavaScript number as String() produces it, for the values
this program passes through String(): integers print in base 10, and
numbers whose denominator divides a power of ten print as finite decimals.
Other rationals cannot result from the JavaScript number literals the
program parses; they receive an inert fraction rendering. -/
def jsNumToString (q : ℚ) : String :=
  if q.den = 1 then intToString q.num
  else
    match (List.range (q.den + 1)).find? (fun k => (10 ^ k) % q.den = 0) with
    | some k =>
      let scaled : ℕ := q.num.natAbs * ((10 ^ k) / q.den)
      let sgnStr := if q.num < 0 then "-" else ""
      let ds := (natToString scaled).data
      let ds := if ds.length ≤ k then List.replicate (k + 1 - ds.length) '0' ++ ds else ds
      let n := ds.length
      sgnStr ++ String.mk (ds.take (n - k)) ++ "." ++ String.mk (ds.drop (n - k))
    | none => intToString q.num ++ "/" ++ natToString q.den

/-- JavaScript String() applied to a property lookup result: undefined
renders as the string undefined, null as null; strings pass through. -/
def jsToString (v : Option JsVal) : String :=
  match v with
  | none => "undefined"
  | some .null => "null"
  | some (.str s) => s
  | some (.num q) => jsNumToString q

/-- String() applied to a filter descriptor value (never undefined). -/
def jsValToString (v : JsVal) : String := jsToString (some v)

/-- The JavaScript ToNumber coercion on a property lookup result, as the
relational operators apply it: undefined is NaN, null is 0, strings go
through Number(). -/
def jsToNumber (v : Option JsVal) : Option ℚ :=
  match v with
  | none => none
  | some .null => some 0
  | some (.num q) => some q
  | some (.str s) => jsNumber s

/-- A property bag: an association list from column name to value.  Key
presence coincides with key presence in the JavaScript object. -/
abbrev PropMap := List (String × JsVal)

/-- Property access item.properties[column], none meaning undefined. -/
def lookupProp (props : PropMap) (column : String) : Option JsVal :=
  props.lookup column

end MapViewerGL

namespace MapViewerGL

/-! ## Column classification (detectCoordinateColumns, detectH3Column) -/

/-- Candidate latitude header names. -/
def possibleLatColumns : List String := ["latitude", "lat", "y"]

/-- Candidate longitude header names. -/
def possibleLngColumns : List String := ["longitude", "lng", "long", "lon", "x"]

/-- Exact case-insensitive header match against a candidate set.  The source
compares h.toLowerCase().trim() with term.toLowerCase(); the candidate terms
are already lower case. -/
def headerExactMatch (terms : List String) (h : String) : Bool :=
  terms.any (fun term => jsTrim (jsToLower h) == term)

/-- Fallback header match: the lower-cased trimmed header starts with a
candidate term followed by an underscore. -/
def headerStartsMatch (terms : List String) (h : String) : Bool :=
  terms.any (fun term => jsStartsWith (jsTrim (jsToLower h)) (term ++ "_"))

/-- detectCoordinateColumns from src/unnamed/part_003 lines 327-360: find the
first exact latitude and longitude headers; if either is missing, recompute
both through the underscore fallback; return the pair only when both of the
finally chosen columns exist. -/
def detectCoordinateColumns (headers : List String) : Option (String × String) :=
  if (headers.find? (headerExactMatch possibleLatColumns)).isNone ||
      (headers.find? (headerExactMatch possibleLngColumns)).isNone then
    match headers.find? (headerStartsMatch possibleLatColumns),
          headers.find? (headerStartsMatch possibleLngColumns) with
    | some la, some ln => some (la, ln)
    | _, _ => none
  else
    match headers.find? (headerExactMatch possibleLatColumns),
          headers.find? (headerExactMatch possibleLngColumns) with
    | some la, some ln => some (la, ln)
    | _, _ => none

/-- Candidate H3 header names. -/
def possibleH3Names : List String := ["hex_id", "h3_index", "h3", "hexagon"]

/-- detectH3Column from src/unnamed/part_003 lines 362-379: exact
case-insensitive match first, then substring containment (which does not
trim, exactly as the source). -/
def detectH3Column (headers : List String) : Option String :=
  match headers.find? (fun h => possibleH3Names.any (fun name => jsTrim (jsToLower h) == name)) with
  | some h => some h
  | none => headers.find? (fun h => possibleH3Names.any (fun name => jsIncludes (jsToLower h) name))

/-! ## Interpretation of the claim wording for coordinate detection.

The claim reads the spec as choosing the latitude column and the longitude
column independently of one another: for each axis take the first exact
match, and only if that axis has no exact match fall back to the first
underscore-prefixed match for that axis.  This definition follows the
claim's words and is compared against detectCoordinateColumns above. -/

/-- Per-axis column choice as the claim describes it: exact match preferred
for this axis alone, fallback otherwise. -/
def claimedAxisColumn (terms : List String) (headers : List String) : Option String :=
  match headers.find? (headerExactMatch terms) with
  | some h => some h
  | none => headers.find? (headerStartsMatch terms)

/-- Coordinate detection as the claim describes it: both axes chosen
independently, the pair defined when both are found. -/
def claimedCoordinateColumns (headers : List String) : Option (String × String) :=
  match claimedAxisColumn possibleLatColumns headers, claimedAxisColumn possibleLngColumns headers with
  | some la, some ln => some (la, ln)
  | _, _ => none

/-! ## Record building (processChunk and the chunk loop, H3 hexagons) -/

/-- A point-layer record: position (longitude, latitude) plus properties. -/
structure PointRecord where
  lng : ℚ
  lat : ℚ
  properties : PropMap
deriving DecidableEq, Repr

/-- The trimmed cell values of a row: row.map(v => String(v).trim()).  An
index past the end of the row reads as the empty string, which parses to
NaN exactly as the undefined of the source does. -/
def rowValues (row : List String) : List String := row.map jsTrim

/-- Property bag of a point record: every selected header, including the
coordinate columns, paired with the cell under it (processChunk lines
418-424 keep every selected column and exclude nothing). -/
def pointProperties (headers selected : List String) (values : List String) : PropMap :=
  headers.enum.filterMap (fun p =>
    if p.2 ∈ selected then some (p.2, JsVal.str (values.getD p.1 "")) else none)

/-- The body of the processChunk row loop for one row: skip empty rows, parse
both coordinates with parseFloat, skip the row when either is NaN or out of
range, else build the record. -/
def rowRecord (headers selected : List String) (latIndex lngIndex : ℕ)
    (row : List String) : Option PointRecord :=
  if row.isEmpty then none
  else
    let values := rowValues row
    match jsParseFloat (values.getD latIndex ""), jsParseFloat (values.getD lngIndex "") with
    | some lat, some lng =>
      if lat < -90 ∨ lat > 90 ∨ lng < -180 ∨ lng > 180 then none
      else some ⟨lng, lat, pointProperties headers selected values⟩
    | _, _ => none

/-- processChunk from src/unnamed/part_003 lines 389-437: process the row
indices from startIndex up to min(startIndex + chunkSize, rows.length),
returning the surviving records and the end index.  The progress callback is
presentation glue and not modelled. -/
def processChunk (rows : List (List String)) (startIndex : ℕ) (headers selected : List String)
    (latIndex lngIndex : ℕ) (chunkSize : ℕ) : List PointRecord × ℕ :=
  let endIndex := min (startIndex + chunkSize) rows.length
  ((List.range' startIndex (endIndex - startIndex)).filterMap
      (fun i => rowRecord headers selected latIndex lngIndex (rows.getD i [])),
   endIndex)

/-- The chunk size constant of proceedWithSelectedColumns. -/
def CHUNK_SIZE : ℕ := 10000

/-- The while loop of proceedWithSelectedColumns lines 646-673: process
chunks from the current index until the end of the rows, concatenating the
chunk outputs. -/
def processRowsFrom (rows : List (List String)) (headers selected : List String)
    (latIndex lngIndex : ℕ) (i : ℕ) : List PointRecord :=
  if _h : i < rows.length then
    (processChunk rows i headers selected latIndex lngIndex CHUNK_SIZE).1 ++
      processRowsFrom rows headers selected latIndex lngIndex (min (i + CHUNK_SIZE) rows.length)
  else []
termination_by rows.length - i
decreasing_by
  simp only [CHUNK_SIZE]
  omega

/-- All surviving point records of a parsed CSV: the loop starts at row
index 1, row 0 being the header row. -/
def processAllRows (rows : List (List String)) (headers selected : List String)
    (latIndex lngIndex : ℕ) : List PointRecord :=
  processRowsFrom rows headers selected latIndex lngIndex 1

/-- The ingestion error taxonomy of the spec. -/
inductive IngestError where
  | MalformedInput
  | UnsupportedFormat
  | NoValidRecords
  | InvalidConfiguration
deriving DecidableEq, Repr

/-- Point-mode layer building outcome (proceedWithSelectedColumns lines
626-677): the error thrown when allData.length === 0 is the spec's
NoValidRecords. -/
def buildPointRecords (rows : List (List String)) (headers selected : List String)
    (latIndex lngIndex : ℕ) : Except IngestError (List PointRecord) :=
  let allData := processAllRows rows headers selected latIndex lngIndex
  if allData.isEmpty then .error .NoValidRecords else .ok allData

/-- An H3-layer record. -/
structure H3Record where
  hex : String
  properties : PropMap
deriving DecidableEq, Repr

/-- The H3 branch of proceedWithSelectedColumns lines 581-598: map every
data row to a hexagon record whose properties keep the selected columns
except the cell at the H3 column index, then drop records whose hex value is
empty or fails H3 validation.  H3 cell validation is an external library
call (h3-js isValidCell) and is therefore a parameter. -/
def buildHexagons (rows : List (List String)) (headers selected : List String)
    (h3ColumnIndex : ℕ) (isValidH3Index : String → Bool) : List H3Record :=
  ((rows.drop 1).map (fun row =>
    let values := rowValues row
    ({ hex := values.getD h3ColumnIndex "",
       properties := headers.enum.filterMap (fun p =>
         if p.2 ∈ selected ∧ p.1 ≠ h3ColumnIndex
         then some (p.2, JsVal.str (values.getD p.1 ""))
         else none) } : H3Record))).filter
    (fun h => h.hex ≠ "" && isValidH3Index h.hex)

/-! ## Column selection state (the CSV preview modal) -/

/-- Selection-changing operations of the CSV preview: toggleColumnSelection,
handleSelectAllColumns, handleDeselectAllColumns. -/
inductive SelOp where
  | toggle (h : String)
  | selectAll
  | deselectAll

/-- One selection step.  toggleColumnSelection refuses to toggle coordinate
columns; deselect-all keeps exactly the coordinate columns. -/
def applySelOp (headers coordinateColumns : List String) (sel : List String) :
    SelOp → List String
  | .toggle h =>
    if h ∈ coordinateColumns then sel
    else if h ∈ sel then sel.filter (fun x => x ≠ h) else h :: sel
  | .selectAll => headers
  | .deselectAll => coordinateColumns

/-- A reachable selection: the default selects every header, then any
sequence of selection steps. -/
def runSelOps (headers coordinateColumns : List String) (ops : List SelOp) : List String :=
  ops.foldl (applySelOp headers coordinateColumns) headers

end MapViewerGL
namespace MapViewerGL

/-! ## Filter descriptors and the two predicate compilers.

Filter descriptors (FilterInfo in FilterModal.tsx) are serialisable tagged
variants.  The program compiles a descriptor into a closure in two places
with different semantics: handleApplyFilter in FilterModal.tsx (the modal
compiler) and importConfiguration in src/unnamed/part_003 (the import
compiler).  Both closures are total functions of the descriptor fields they
capture, so they are embedded as evaluation functions of the descriptor. -/

/-- The comparison operators of the filter modal. -/
inductive CompOp where
  | eq
  | lt
  | le
  | gt
  | ge
deriving DecidableEq, Repr

/-- Numeric or text filter, FilterInfo.type. -/
inductive FilterKind where
  | numeric
  | text
deriving DecidableEq, Repr

/-- FilterInfo.value: range, comparison, or multi-value membership. -/
inductive FilterValue where
  | range (min max : ℚ)
  | comparison (op : CompOp) (value : JsVal)
  | multiple (values : List String)
deriving DecidableEq, Repr

/-- A filter descriptor (FilterInfo of FilterModal.tsx). -/
structure FilterInfo where
  column : String
  kind : FilterKind
  value : FilterValue
deriving DecidableEq, Repr

/-- The two places a stored filter closure can come from. -/
inductive FilterOrigin where
  | modal
  | imported
deriving DecidableEq, Repr

/-- The closure built by handleApplyFilter in FilterModal.tsx lines 146-214.
Numeric comparison: the strict equality case compares the raw property
value with the number (false whenever the property is a string); the
relational cases are JavaScript relational operators, which coerce the
property with ToNumber.  Numeric range likewise.  Text membership lower-cases
both sides and tests substring containment; text comparison compares
String(value) with the raw filter string, with no lower-casing.  The switch
defaults return false.  The numeric/multiple and text/range combinations are
never built by the modal; they evaluate to the inert false. -/
def evalModalFilter (info : FilterInfo) (props : PropMap) : Bool :=
  let value := lookupProp props info.column
  match info.kind, info.value with
  | .numeric, .comparison op v =>
    let c := jsToNumber (some v)
    (match op with
     | .eq =>
       (match value, c with
        | some (.num q'), some q => q' == q
        | _, _ => false)
     | .lt => optLt (jsToNumber value) c
     | .le => optLe (jsToNumber value) c
     | .gt => optLt c (jsToNumber value)
     | .ge => optLe c (jsToNumber value))
  | .numeric, .range mn mx =>
    optLe (some mn) (jsToNumber value) && optLe (jsToNumber value) (some mx)
  | .text, .multiple vs =>
    vs.any (fun sel => jsIncludes (jsToLower (jsToString value)) (jsToLower sel))
  | .text, .comparison op v =>
    let s := jsToString value
    let c := jsValToString v
    (match op with
     | .eq => s == c
     | .lt => jsStrLt s c
     | .le => jsStrLe s c
     | .gt => jsStrLt c s
     | .ge => jsStrLe c s)
  | .numeric, .multiple _ => false
  | .text, .range _ _ => false

/-- The closure built by importConfiguration in src/unnamed/part_003 lines
1418-1457.  The property value is read through item.properties, the numeric
side parses both the property (parseFloat(value), which stringifies first)
and the filter value (parseFloat(String(v))), and the text side lower-cases
both sides.  Unmatched kind/value combinations fall through to the final
return true. -/
def evalImportFilter (info : FilterInfo) (props : PropMap) : Bool :=
  let value := lookupProp props info.column
  match info.kind with
  | .numeric =>
    let numValue := jsParseFloat (jsToString value)
    (match info.value with
     | .range mn mx => optLe (some mn) numValue && optLe numValue (some mx)
     | .comparison op v =>
       let compValue := jsParseFloat (jsValToString v)
       (match op with
        | .lt => optLt numValue compValue
        | .le => optLe numValue compValue
        | .gt => optLt compValue numValue
        | .ge => optLe compValue numValue
        | .eq => optEq numValue compValue)
     | .multiple _ => true)
  | .text =>
    let strValue := jsToLower (jsToString value)
    (match info.value with
     | .multiple vs => vs.any (fun v => jsIncludes strValue (jsToLower v))
     | .comparison op v =>
       let compValue := jsToLower (jsValToString v)
       (match op with
        | .eq => strValue == compValue
        | .lt => jsStrLt strValue compValue
        | .le => jsStrLe strValue compValue
        | .gt => jsStrLt compValue strValue
        | .ge => jsStrLe compValue strValue)
     | .range _ _ => true)

/-- A stored layer filter: the compiled closure (identified by its origin
and descriptor) together with the descriptor, as activeFilters stores
fn and info. -/
abbrev StoredFilter := FilterOrigin × FilterInfo

/-- Evaluation of a stored filter closure on a record's property bag. -/
def evalStoredFilter (f : StoredFilter) (props : PropMap) : Bool :=
  match f.1 with
  | .modal => evalModalFilter f.2 props
  | .imported => evalImportFilter f.2 props

/-- applyFilters from src/unnamed/part_003 lines 959-962:
data.filter(item => layerFilters.every(filter => filter.fn(item))). -/
def applyFilters (layerFilters : List StoredFilter) (data : List PropMap) : List PropMap :=
  data.filter (fun item => layerFilters.all (fun f => evalStoredFilter f item))

end MapViewerGL
namespace MapViewerGL

/-! ## Style classifier (quantile breaks, color buckets) -/

/-- The getValue helper of getNumericValuesForColumn (src/unnamed/part_003
lines 965-975): null, undefined and the empty string coerce to 0, strings go
through parseFloat with NaN coerced to 0, numbers pass through. -/
def getValue (props : PropMap) (column : String) : ℚ :=
  match lookupProp props column with
  | none => 0
  | some .null => 0
  | some (.str s) => if s = "" then 0 else (jsParseFloat s).getD 0
  | some (.num q) => q

/-- getNumericValuesForColumn (lines 964-996): coerce the column values of
the layer's records, filtered first when the layer has active filters.
Filtering a record list by an empty filter list returns the list itself, so
the presence test of the source collapses into applyFilters. -/
def getNumericValuesForColumn (layerFilters : List StoredFilter) (data : List PropMap)
    (column : String) : List ℚ :=
  (applyFilters layerFilters data).map (fun r => getValue r column)

/-- The quantile-break computation inside updateLayerColorMapping (lines
1026-1040): sort the numeric values ascending and push the value at index
floor((i / numClasses) * length) for i = 1 .. numClasses - 1.  The source's
map of parseFloat over entries of the number array and its NaN filter are
identities here because getValue already produced numbers and never NaN.
floor((i / n) * l) over exact arithmetic is natural-number division
(i * l) / n.  An out-of-range index reads as the JavaScript undefined; the
bounds theorem shows it cannot occur for a non-empty value list. -/
def updateLayerColorMappingBreaks (values : List ℚ) (numClasses : ℕ) : List ℚ :=
  let numericValues := values.mergeSort (fun a b => a ≤ b)
  (List.range' 1 (numClasses - 1)).map
    (fun i => numericValues.getD ((i * numericValues.length) / numClasses) 0)

/-- The eight named color ramps (colorScales, lines 26-37). -/
inductive ColorScaleName where
  | Reds
  | Blues
  | Greens
  | Greys
  | YlGnBu
  | YlOrRd
  | PuBuGn
  | RdPu
deriving DecidableEq, Repr

/-- colorScales: every ramp lists its hex colors. -/
def colorScales : ColorScaleName → List String
  | .Reds => ["#fee5d9", "#fcae91", "#fb6a4a", "#de2d26", "#a50f15"]
  | .Blues => ["#eff3ff", "#bdd7e7", "#6baed6", "#3182bd", "#08519c"]
  | .Greens => ["#edf8e9", "#bae4b3", "#74c476", "#31a354", "#006d2c"]
  | .Greys => ["#f7f7f7", "#cccccc", "#969696", "#636363", "#252525"]
  | .YlGnBu => ["#ffffd9", "#c7e9b4", "#7fcdbb", "#41b6c4", "#225ea8"]
  | .YlOrRd => ["#ffffb2", "#fecc5c", "#fd8d3c", "#f03b20", "#bd0026"]
  | .PuBuGn => ["#f6eff7", "#bdc9e1", "#67a9cf", "#1c9099", "#016c59"]
  | .RdPu => ["#feebe2", "#fbb4b9", "#f768a1", "#c51b8a", "#7a0177"]

/-- A layer color mapping. -/
structure ColorMapping where
  column : String
  numClasses : ℕ
  breaks : List ℚ
  colorScale : ColorScaleName
deriving DecidableEq, Repr

/-- The bucket search loop of getColorForValue (lines 1002-1008): the first
break index i with value <= breaks[i], defaulting to numClasses - 1. -/
def bucketIndexOfValue (value : ℚ) (cm : ColorMapping) : ℕ :=
  match cm.breaks.findIdx? (fun b => value ≤ b) with
  | some i => i
  | none => cm.numClasses - 1

/-- getColorForValue (lines 998-1016): empty breaks fall back to the base
color; otherwise the ramp is indexed at the bucket index.  An index past the
ramp reads undefined in JavaScript and the subsequent hexToRGB call throws;
that outcome is modelled by none. -/
def getColorForValue (value : ℚ) (baseColor : String) (cm : ColorMapping) : Option String :=
  if cm.breaks.isEmpty then some baseColor
  else (colorScales cm.colorScale).get? (bucketIndexOfValue value cm)

/-- The bounds of the Number of Classes range control (lines 1956-1959). -/
def classCountMin : ℕ := 3

/-- The upper bound of the Number of Classes range control. -/
def classCountMax : ℕ := 10

/-! ## Spatial extent (extractCoordinates, calculateBounds, view derivation) -/

/-- GeoJSON geometry, with positions as (longitude, latitude) pairs. -/
inductive Geometry where
  | point (c : ℚ × ℚ)
  | lineString (cs : List (ℚ × ℚ))
  | polygon (css : List (List (ℚ × ℚ)))
  | multiPoint (cs : List (ℚ × ℚ))
  | multiLineString (css : List (List (ℚ × ℚ)))
  | multiPolygon (csss : List (List (List (ℚ × ℚ))))
  | geometryCollection (gs : List Geometry)

/-- A GeoJSON feature: geometry plus properties. -/
structure Feature where
  geometry : Geometry
  properties : PropMap

/-- A feature collection. -/
structure FeatureCollection where
  features : List Feature

/-- extractCoordinates (lines 288-307): flatten every geometry kind to its
position list, recursing through geometry collections. -/
def extractCoordinates : Geometry → List (ℚ × ℚ)
  | .point c => [c]
  | .lineString cs => cs
  | .polygon css => css.flatten
  | .multiPoint cs => cs
  | .multiLineString css => css.flatten
  | .multiPolygon csss => (csss.map List.flatten).flatten
  | .geometryCollection gs => gs.attach.flatMap (fun g => extractCoordinates g.1)
decreasing_by
  simp only [Geometry.geometryCollection.sizeOf_spec]
  have := List.sizeOf_lt_of_mem g.2
  omega

/-- A bounding box. -/
structure Bounds where
  minLat : ℚ
  maxLat : ℚ
  minLng : ℚ
  maxLng : ℚ
deriving DecidableEq, Repr

/-- Math.min spread over a non-empty list. -/
def listMin (x : ℚ) (xs : List ℚ) : ℚ := xs.foldl min x

/-- Math.max spread over a non-empty list. -/
def listMax (x : ℚ) (xs : List ℚ) : ℚ := xs.foldl max x

/-- calculateBounds (lines 309-325): flatten all feature coordinates; null
when none are found, else the min/max of latitudes and longitudes. -/
def calculateBounds (fc : FeatureCollection) : Option Bounds :=
  let coordinates := fc.features.flatMap (fun f => extractCoordinates f.geometry)
  match coordinates with
  | [] => none
  | c :: cs =>
    some { minLat := listMin c.2 (cs.map Prod.snd),
           maxLat := listMax c.2 (cs.map Prod.snd),
           minLng := listMin c.1 (cs.map Prod.fst),
           maxLng := listMax c.1 (cs.map Prod.fst) }

/-- The view center derived from a bounding box (lines 679-680 and 831-832):
the per-axis midpoint, as (latitude, longitude). -/
def deriveCenter (b : Bounds) : ℚ × ℚ :=
  ((b.minLat + b.maxLat) / 2, (b.minLng + b.maxLng) / 2)

/-- The larger axis span of a bounding box (lines 681-684). -/
def maxSpan (b : Bounds) : ℚ :=
  max (b.maxLat - b.minLat) (b.maxLng - b.minLng)

/-- Math.log2 negated, on the non-negative reals the zoom formula feeds it:
JavaScript evaluates -log2(0) to positive infinity, modelled in the extended
reals. -/
noncomputable def jsNegLog2 (x : ℚ) : EReal :=
  if x = 0 then ⊤ else ((-(Real.logb 2 (x : ℝ)) : ℝ) : EReal)

/-- The zoom heuristic (line 685): Math.min(20, Math.max(3,
-Math.log2(maxDiff * 2.5))).  The product by 2.5 is the product by 5/2 in
exact arithmetic. -/
noncomputable def deriveZoom (b : Bounds) : EReal :=
  min 20 (max 3 (jsNegLog2 (maxSpan b * (5 / 2))))

end MapViewerGL
namespace MapViewerGL

/-! ## Layer identifiers across a session (getNextLayerId and import).

The identifier-relevant state is the counter behind getNextLayerId (lines
228-232) and the identifiers of the current layers.  Successful uploads
assign getNextLayerId() (counter incremented, new id appended); removals
filter one id out; importConfiguration replaces the layer list with layers
whose ids are their array indices 0 .. n-1 (line 1486) and does not touch
the counter. -/

/-- Identifier-relevant session state. -/
structure IdSession where
  counter : ℕ
  layerIds : List ℕ
deriving DecidableEq, Repr

/-- The initial state: useRef(0) and no layers. -/
def initialIdSession : IdSession := ⟨0, []⟩

/-- The session operations that create or destroy layers. -/
inductive SessionOp where
  | upload
  | removeLayer (id : ℕ)
  | importConfig (n : ℕ)
deriving DecidableEq, Repr

/-- One step of the identifier state machine. -/
def applySessionOp (s : IdSession) : SessionOp → IdSession
  | .upload => ⟨s.counter + 1, s.layerIds ++ [s.counter + 1]⟩
  | .removeLayer i => ⟨s.counter, s.layerIds.filter (fun x => x ≠ i)⟩
  | .importConfig n => ⟨s.counter, List.range n⟩

/-- Run a sequence of session operations from the initial state. -/
def runSessionOps (ops : List SessionOp) : IdSession :=
  ops.foldl applySessionOp initialIdSession

/-! ## Configuration export and import (exportConfiguration,
importConfiguration).

Only the configuration-relevant fields are modelled; a layer's record
payload is its list of property bags, since every filter predicate and
every record count in the round-trip claim reads properties only. -/

/-- The view state of the map. -/
structure ViewState where
  latitude : ℚ
  longitude : ℚ
  zoom : ℚ
deriving DecidableEq, Repr

/-- The kind of a layer. -/
inductive LayerKind where
  | geojson
  | point
  | h3
deriving DecidableEq, Repr

/-- A session layer (LayerInfo), restricted to configuration-relevant
fields. -/
structure SessionLayer where
  id : ℕ
  name : String
  kind : LayerKind
  visible : Bool
  color : String
  opacity : ℚ
  data : List PropMap
  colorMapping : Option ColorMapping
deriving DecidableEq, Repr

/-- The map session: layers, per-layer-id stored filters (activeFilters),
view state and basemap. -/
structure MapSession where
  layers : List SessionLayer
  activeFilters : List (ℕ × List StoredFilter)
  viewState : ViewState
  basemap : String
deriving DecidableEq, Repr

/-- The filters applied to a layer id: activeFilters[layerId] || []. -/
def filtersFor (s : MapSession) (layerId : ℕ) : List StoredFilter :=
  (s.activeFilters.lookup layerId).getD []

/-- The records of a layer that survive its filters, as every renderer and
count reads them. -/
def effectiveRecords (s : MapSession) (l : SessionLayer) : List PropMap :=
  applyFilters (filtersFor s l.id) l.data

/-- A layer descriptor inside an exported configuration document. -/
structure ConfigLayer where
  name : String
  kind : LayerKind
  visible : Bool
  color : String
  opacity : ℚ
  data : List PropMap
  filters : Option (List FilterInfo)
  selectedProperties : List String
  colorMapping : Option ColorMapping
deriving DecidableEq, Repr

/-- A configuration document (MapConfiguration).  The version field is
optional to model documents in which it is missing. -/
structure MapConfiguration where
  version : Option String
  viewState : ViewState
  basemap : String
  layers : List ConfigLayer
deriving DecidableEq, Repr

/-- exportConfiguration (lines 1346-1367): version 1.0.0, the current view
state and basemap, and one descriptor per layer in order; the filters field
is activeFilters[layer.id]?.map(info), absent exactly when the layer id has
no activeFilters entry; selectedProperties lists the keys of the first
record's property bag. -/
def exportedLayer (s : MapSession) (l : SessionLayer) : ConfigLayer :=
  { name := l.name,
    kind := l.kind,
    visible := l.visible,
    color := l.color,
    opacity := l.opacity,
    data := l.data,
    filters := (s.activeFilters.lookup l.id).map (fun fs => fs.map Prod.snd),
    selectedProperties := ((l.data.head?).map (fun r => r.map Prod.fst)).getD [],
    colorMapping := l.colorMapping }

def exportConfiguration (s : MapSession) : MapConfiguration :=
  { version := some "1.0.0",
    viewState := s.viewState,
    basemap := s.basemap,
    layers := s.layers.map (exportedLayer s) }

/-- The filter import pass of importConfiguration (lines 1415-1459): for
every layer index whose descriptor list is present and non-empty, compile
each descriptor with the import compiler. -/
def compiledImportFilters (cfg : MapConfiguration) : List (ℕ × List StoredFilter) :=
  cfg.layers.enum.filterMap (fun p =>
    match p.2.filters with
    | some fs =>
      if fs.length > 0 then some (p.1, fs.map (fun info => (FilterOrigin.imported, info)))
      else none
    | none => none)

/-- The newFilters[index] read of the layer import pass: the compiled
filters of a layer index, empty when the index has no entry. -/
def importedLayerFilters (cfg : MapConfiguration) (i : ℕ) : List StoredFilter :=
  ((compiledImportFilters cfg).lookup i).getD []

/-- One imported layer (importConfiguration lines 1463-1499): the array
index becomes the id, and the data is pre-filtered through the compiled
filters of that index when any are present. -/
def importedLayer (cfg : MapConfiguration) (p : ℕ × ConfigLayer) : SessionLayer :=
  { id := p.1,
    name := p.2.name,
    kind := p.2.kind,
    visible := p.2.visible,
    color := p.2.color,
    opacity := p.2.opacity,
    data := if (importedLayerFilters cfg p.1).isEmpty then p.2.data
            else p.2.data.filter (fun r =>
              (importedLayerFilters cfg p.1).all (fun f => evalStoredFilter f r)),
    colorMapping := p.2.colorMapping }

/-- importConfiguration (lines 1392-1507).  A missing or empty version field
(!config.version) aborts with InvalidConfiguration before any state change.
Otherwise the layer list is rebuilt: layer index becomes the id, the data is
pre-filtered through the compiled filters of that index, and the compiled
filters become the active filters. -/
def importConfigurationE (cfg : MapConfiguration) : Except IngestError MapSession :=
  match cfg.version with
  | none => .error .InvalidConfiguration
  | some v =>
    if v = "" then .error .InvalidConfiguration
    else
      .ok { layers := cfg.layers.enum.map (importedLayer cfg),
            activeFilters := compiledImportFilters cfg,
            viewState := cfg.viewState,
            basemap := cfg.basemap }

/-- The user-facing import handler: a failed import alerts and leaves the
session unchanged (the error is thrown before any state setter runs). -/
def importConfiguration (s : MapSession) (cfg : MapConfiguration) : MapSession :=
  match importConfigurationE cfg with
  | .error _ => s
  | .ok s' => s'

end MapViewerGL
namespace MapViewerGL

/-! ## Helper lemmas -/

/-- The element b is the first element of l satisfying p: b satisfies p,
occurs at some position, and every earlier position fails p. -/
def FirstSat {α : Type} (p : α → Bool) (l : List α) (b : α) : Prop :=
  p b = true ∧ ∃ i, l.get? i = some b ∧
    ∀ j, j < i → ∀ x, l.get? j = some x → p x = false

/-- find? returns exactly the first element satisfying the predicate. -/
theorem find?_eq_some_iff_firstSat {α : Type} (p : α → Bool) (l : List α) (b : α) :
    l.find? p = some b ↔ FirstSat p l b := by
  rw [List.find?_eq_some, FirstSat]
  constructor
  · rintro ⟨hpb, as, bs, rfl, hall⟩
    refine ⟨hpb, as.length, ?_, ?_⟩
    · rw [List.get?_eq_getElem?, List.getElem?_append_right (le_refl _)]
      simp
    · intro j hj x hx
      rw [List.get?_eq_getElem?, List.getElem?_append, if_pos hj] at hx
      have hmem : x ∈ as := List.getElem?_mem hx
      simpa using hall x hmem
  · rintro ⟨hpb, i, hi, hfirst⟩
    rw [List.get?_eq_getElem?] at hi
    have hilen : i < l.length := by
      by_contra hc
      rw [List.getElem?_eq_none (by omega)] at hi
      exact Option.noConfusion hi
    refine ⟨hpb, l.take i, l.drop (i + 1), ?_, ?_⟩
    · have hb : l[i] = b := by
        rw [List.getElem?_eq_getElem hilen] at hi
        exact Option.some.inj hi
      rw [← hb, ← List.drop_eq_getElem_cons hilen]
      exact (List.take_append_drop i l).symm
    · intro a ha
      obtain ⟨j, hj, hja⟩ := List.getElem_of_mem ha
      have hjlt : j < i := by
        have := hj
        simp [List.length_take] at this
        omega
      have hga : l[j]? = some a := by
        have htj : (List.take i l)[j]? = some ((List.take i l)[j]) := List.getElem?_eq_getElem hj
        rw [List.getElem?_take, if_pos hjlt] at htj
        rw [hja] at htj
        exact htj
      simpa using hfirst j hjlt a (by rw [List.get?_eq_getElem?]; exact hga)

/-! ## Claim C7: coordinate column detection -/

/-- Claim C7, counterexample.  On the header list [lat, long_x] the claim
reads the classifier as picking lat by exact match and long_x by underscore
fallback and returning the pair, but the code's fallback branch recomputes
both columns, discards the exact latitude match (lat does not carry an
underscore), and returns null. -/
theorem C7_counterexample :
    detectCoordinateColumns ["lat", "long_x"] = none ∧
    claimedCoordinateColumns ["lat", "long_x"] = some ("lat", "long_x") := by
  decide

/-- Claim C7 (amended): detectCoordinateColumns headers = some (la, ln) iff
either both candidate sets have exact case-insensitive matches and la, ln
are the first such headers in header order, or at least one axis has no
exact match and la, ln are the first underscore-fallback matches of their
axes, in header order — in the fallback case an exact match on the other
axis is discarded rather than kept.  The result is defined only when the
active tier finds both columns, and the first matching header always wins,
regardless of extra unrelated columns. -/
theorem C7_detectCoordinateColumns_characterization (headers : List String) (la ln : String) :
    detectCoordinateColumns headers = some (la, ln) ↔
      ((FirstSat (headerExactMatch possibleLatColumns) headers la ∧
        FirstSat (headerExactMatch possibleLngColumns) headers ln) ∨
       (((∀ h ∈ headers, headerExactMatch possibleLatColumns h = false) ∨
         (∀ h ∈ headers, headerExactMatch possibleLngColumns h = false)) ∧
        FirstSat (headerStartsMatch possibleLatColumns) headers la ∧
        FirstSat (headerStartsMatch possibleLngColumns) headers ln)) := by
  have hnone : ∀ (p : String → Bool), headers.find? p = none ↔ ∀ h ∈ headers, p h = false := by
    intro p
    rw [List.find?_eq_none]
    simp
  unfold detectCoordinateColumns
  rcases hlat : headers.find? (headerExactMatch possibleLatColumns) with _ | la0 <;>
    rcases hlng : headers.find? (headerExactMatch possibleLngColumns) with _ | ln0
  · simp only [Option.isNone_none, Bool.true_or, if_true]
    rcases hsl : headers.find? (headerStartsMatch possibleLatColumns) with _ | a <;>
      rcases hsln : headers.find? (headerStartsMatch possibleLngColumns) with _ | b <;>
      simp [← find?_eq_some_iff_firstSat, hlat, hlng, hsl, hsln, ← hnone]
  · simp only [Option.isNone_none, Bool.true_or, if_true]
    rcases hsl : headers.find? (headerStartsMatch possibleLatColumns) with _ | a <;>
      rcases hsln : headers.find? (headerStartsMatch possibleLngColumns) with _ | b <;>
      simp [← find?_eq_some_iff_firstSat, hlat, hlng, hsl, hsln, ← hnone]
  · simp only [Option.isNone_none, Option.isNone_some, Bool.or_true, if_true]
    rcases hsl : headers.find? (headerStartsMatch possibleLatColumns) with _ | a <;>
      rcases hsln : headers.find? (headerStartsMatch possibleLngColumns) with _ | b <;>
      simp [← find?_eq_some_iff_firstSat, hlat, hlng, hsl, hsln, ← hnone]
  · simp only [Option.isNone_some, Bool.or_self, if_false]
    simp [← find?_eq_some_iff_firstSat, hlat, hlng, ← hnone]

end MapViewerGL
namespace MapViewerGL

/-- The chunked processing loop visits exactly the row indices from i to the
end, in order. -/
theorem processRowsFrom_eq_range' (rows : List (List String)) (headers selected : List String)
    (latIndex lngIndex : ℕ) :
    ∀ i, processRowsFrom rows headers selected latIndex lngIndex i =
      (List.range' i (rows.length - i)).filterMap
        (fun k => rowRecord headers selected latIndex lngIndex (rows.getD k [])) := by
  suffices h : ∀ n i, rows.length - i = n →
      processRowsFrom rows headers selected latIndex lngIndex i =
        (List.range' i (rows.length - i)).filterMap
          (fun k => rowRecord headers selected latIndex lngIndex (rows.getD k [])) by
    intro i
    exact h (rows.length - i) i rfl
  intro n
  induction n using Nat.strong_induction_on with
  | _ n ih =>
    intro i hni
    rw [processRowsFrom]
    by_cases h : i < rows.length
    · rw [dif_pos h]
      have hlt : i < min (i + CHUNK_SIZE) rows.length := by
        simp only [CHUNK_SIZE]
        omega
      have ih' := ih (rows.length - min (i + CHUNK_SIZE) rows.length) (by omega)
        (min (i + CHUNK_SIZE) rows.length) rfl
      rw [ih']
      simp only [processChunk]
      rw [← List.filterMap_append]
      congr 1
      have happ := List.range'_append i (min (i + CHUNK_SIZE) rows.length - i)
        (rows.length - min (i + CHUNK_SIZE) rows.length) 1
      simp only [one_mul] at happ
      rw [show i + (min (i + CHUNK_SIZE) rows.length - i) = min (i + CHUNK_SIZE) rows.length by
        omega] at happ
      rw [happ]
      congr 1
      omega
    · rw [dif_neg h]
      have h0 : rows.length - i = 0 := by omega
      rw [h0]
      simp

/-- Shifting the start of an index range by one skips the head of the list
being indexed. -/
theorem range'_filterMap_getD_shift {α β : Type} (f : α → Option β) (d : α) (x : α)
    (xs : List α) (m j : ℕ) :
    (List.range' (j + 1) m).filterMap (fun k => f ((x :: xs).getD k d)) =
      (List.range' j m).filterMap (fun k => f (xs.getD k d)) := by
  rw [List.range'_eq_map_range, List.range'_eq_map_range, List.filterMap_map,
    List.filterMap_map]
  congr 1
  funext k
  show f ((x :: xs).getD (j + 1 + k) d) = f (xs.getD (j + k) d)
  rw [show j + 1 + k = (j + k) + 1 by omega, List.getD_cons_succ]

/-- Indexing the suffix of a list through a range of positions is the same
as dropping the matching elements. -/
theorem range'_filterMap_getD {α β : Type} (f : α → Option β) (d : α) :
    ∀ (l : List α) (j : ℕ),
      (List.range' j (l.length - j)).filterMap (fun k => f (l.getD k d)) =
        (l.drop j).filterMap f := by
  intro l
  induction l with
  | nil => intro j; simp
  | cons x xs ih =>
    intro j
    cases j with
    | zero =>
      have hlen : (x :: xs).length - 0 = xs.length + 1 := by simp
      rw [hlen, List.range'_succ]
      rw [List.filterMap_cons, List.drop_zero, List.filterMap_cons]
      have hshift := range'_filterMap_getD_shift f d x xs xs.length 0
      have ih0 := ih 0
      simp only [Nat.sub_zero, List.drop_zero] at ih0
      rw [List.getD_cons_zero]
      cases hfx : f x with
      | none => rw [hshift, ih0]
      | some b => rw [hshift, ih0]
    | succ j' =>
      have hlen : (x :: xs).length - (j' + 1) = xs.length - j' := by simp
      rw [hlen, range'_filterMap_getD_shift f d x xs _ j', ih j', List.drop_succ_cons]

/-- The full point pipeline is the per-row filter over the data rows (every
row after the header row). -/
theorem processAllRows_eq_filterMap (rows : List (List String)) (headers selected : List String)
    (latIndex lngIndex : ℕ) :
    processAllRows rows headers selected latIndex lngIndex =
      (rows.drop 1).filterMap (rowRecord headers selected latIndex lngIndex) := by
  rw [processAllRows, processRowsFrom_eq_range', range'_filterMap_getD]

end MapViewerGL
namespace MapViewerGL

/-- An invalid data row as claim C3 words it: the latitude or the longitude
cell fails to parse as a number, or parses outside latitude [-90, 90] or
longitude [-180, 180]. -/
def invalidCoordRow (latIndex lngIndex : ℕ) (row : List String) : Bool :=
  match jsParseFloat ((rowValues row).getD latIndex ""),
        jsParseFloat ((rowValues row).getD lngIndex "") with
  | some lat, some lng => decide (lat < -90 ∨ lat > 90 ∨ lng < -180 ∨ lng > 180)
  | _, _ => true

/-- A row is skipped exactly when it is invalid in the claim's sense.  The
separate empty-row guard of processChunk coincides with a latitude parse
failure, since every cell of an empty row reads as the empty string. -/
theorem rowRecord_eq_none_iff (headers selected : List String) (latIndex lngIndex : ℕ)
    (row : List String) :
    rowRecord headers selected latIndex lngIndex row = none ↔
      invalidCoordRow latIndex lngIndex row = true := by
  by_cases hrow : row = []
  · subst hrow
    have hempty : jsParseFloat "" = none := by decide
    simp [rowRecord, invalidCoordRow, rowValues, hempty]
  · have hne : row.isEmpty = false := by
      simpa [List.isEmpty_iff] using hrow
    rcases h1 : jsParseFloat ((rowValues row)[latIndex]?.getD "") with _ | lat <;>
      rcases h2 : jsParseFloat ((rowValues row)[lngIndex]?.getD "") with _ | lng
    · simp [rowRecord, invalidCoordRow, hne, h1, h2]
    · simp [rowRecord, invalidCoordRow, hne, h1, h2]
    · simp [rowRecord, invalidCoordRow, hne, h1, h2]
    · simp only [rowRecord, invalidCoordRow, hne, Bool.false_eq_true, if_false,
        List.getD_eq_getElem?_getD, h1, h2]
      by_cases hr : lat < -90 ∨ lat > 90 ∨ lng < -180 ∨ lng > 180
      · rw [if_pos hr]
        simp [hr]
      · rw [if_neg hr]
        simp [hr]

/-- The number of produced records counts the valid rows. -/
theorem length_filterMap_eq_countP {α β : Type} (f : α → Option β) (l : List α) :
    (l.filterMap f).length = l.countP (fun a => (f a).isSome) := by
  induction l with
  | nil => simp
  | cons x xs ih =>
    cases hfx : f x <;> simp [List.filterMap_cons, hfx, List.countP_cons, ih]

/-- Claim C3: in point mode every row whose latitude or longitude fails to
parse or falls outside the valid ranges is skipped without an error, the
output record count is the data-row count minus the invalid-row count, and
building fails with NoValidRecords exactly when every data row is
invalid (zero rows survive). -/
theorem C3_point_record_building (rows : List (List String)) (headers selected : List String)
    (latIndex lngIndex : ℕ) :
    (∀ row ∈ rows.drop 1,
      (rowRecord headers selected latIndex lngIndex row = none ↔
        invalidCoordRow latIndex lngIndex row = true)) ∧
    (processAllRows rows headers selected latIndex lngIndex).length =
      (rows.drop 1).length - (rows.drop 1).countP (invalidCoordRow latIndex lngIndex) ∧
    (buildPointRecords rows headers selected latIndex lngIndex =
        Except.error IngestError.NoValidRecords ↔
      ∀ row ∈ rows.drop 1, invalidCoordRow latIndex lngIndex row = true) := by
  have hrowiff := rowRecord_eq_none_iff headers selected latIndex lngIndex
  refine ⟨fun row _ => hrowiff row, ?_, ?_⟩
  · rw [processAllRows_eq_filterMap, length_filterMap_eq_countP]
    have hcong : (rows.drop 1).countP
        (fun a => (rowRecord headers selected latIndex lngIndex a).isSome) =
        (rows.drop 1).countP (fun a => decide ¬ invalidCoordRow latIndex lngIndex a = true) := by
      apply List.countP_congr
      intro row _
      constructor
      · intro hs
        simp only [decide_eq_true_eq]
        intro hbad
        rw [← hrowiff row] at hbad
        rw [hbad] at hs
        simp at hs
      · intro hs
        simp only [decide_eq_true_eq] at hs
        rcases hopt : rowRecord headers selected latIndex lngIndex row with _ | r
        · exact absurd ((hrowiff row).mp hopt) hs
        · rfl
    rw [hcong]
    have := List.length_eq_countP_add_countP (invalidCoordRow latIndex lngIndex) (rows.drop 1)
    omega
  · rw [buildPointRecords]
    rcases hdata : processAllRows rows headers selected latIndex lngIndex with _ | ⟨r, rest⟩
    · simp only [List.isEmpty_nil, if_true]
      constructor
      · intro _
        rw [processAllRows_eq_filterMap] at hdata
        intro row hmem
        exact (hrowiff row).mp (List.filterMap_eq_nil_iff.mp hdata row hmem)
      · intro _
        trivial
    · simp only [List.isEmpty_cons, Bool.false_eq_true, if_false]
      constructor
      · intro hcontra
        exact Except.noConfusion hcontra
      · intro hall
        exfalso
        rw [processAllRows_eq_filterMap] at hdata
        have : (rows.drop 1).filterMap (rowRecord headers selected latIndex lngIndex) = [] := by
          rw [List.filterMap_eq_nil_iff]
          intro row hmem
          exact (hrowiff row).mpr (hall row hmem)
        rw [this] at hdata
        exact List.noConfusion hdata

/-- Witness for claim C3 at the spec's own scenario: the CSV lat,lng,val
with rows (10,20,5) and (91,20,7); the second row is invalid (latitude 91),
one record survives, and no error is raised. -/
theorem C3_point_record_building_witness :
    (processAllRows [["lat", "lng", "val"], ["10", "20", "5"], ["91", "20", "7"]]
      ["lat", "lng", "val"] ["lat", "lng", "val"] 0 1).length =
      ([["10", "20", "5"], ["91", "20", "7"]] : List (List String)).length -
        ([["10", "20", "5"], ["91", "20", "7"]] : List (List String)).countP
          (invalidCoordRow 0 1) := by
  exact (C3_point_record_building [["lat", "lng", "val"], ["10", "20", "5"], ["91", "20", "7"]]
    ["lat", "lng", "val"] ["lat", "lng", "val"] 0 1).2.1

end MapViewerGL
namespace MapViewerGL

/-- An association list with no key equal to k looks up k to none. -/
theorem lookup_eq_none_of_keys {l : List (String × JsVal)} {k : String}
    (h : ∀ p ∈ l, p.1 ≠ k) : l.lookup k = none := by
  induction l with
  | nil => rfl
  | cons ph t ih =>
    obtain ⟨a, b⟩ := ph
    have hne : (k == a) = false := by
      have : a ≠ k := h (a, b) (List.mem_cons_self _ _)
      simp [beq_eq_false_iff_ne]
      exact fun he => this he.symm
    simp only [List.lookup, hne]
    exact ih (fun p hp => h p (List.mem_cons_of_mem _ hp))

/-- A surviving point record carries exactly the selected-column property
bag of its row. -/
theorem rowRecord_properties (headers selected : List String) (latIndex lngIndex : ℕ)
    (row : List String) (rec : PointRecord)
    (hsome : rowRecord headers selected latIndex lngIndex row = some rec) :
    rec.properties = pointProperties headers selected (rowValues row) := by
  unfold rowRecord at hsome
  by_cases hrow : row.isEmpty
  · simp [hrow] at hsome
  · simp only [hrow, Bool.false_eq_true, if_false] at hsome
    rcases h1 : jsParseFloat ((rowValues row).getD latIndex "") with _ | lat <;>
      rcases h2 : jsParseFloat ((rowValues row).getD lngIndex "") with _ | lng <;>
      simp only [h1, h2] at hsome
    · exact Option.noConfusion hsome
    · exact Option.noConfusion hsome
    · exact Option.noConfusion hsome
    · by_cases hr : lat < -90 ∨ lat > 90 ∨ lng < -180 ∨ lng > 180
      · rw [if_pos hr] at hsome
        exact Option.noConfusion hsome
      · rw [if_neg hr] at hsome
        rw [← Option.some.inj hsome]

/-- Claim C2 counterexample, at the claim's own example.  The CSV
lat,lng,val with data row 10,20,5 is detected with coordinate columns
(lat, lng), and under the default (complete, non-deselectable-coordinate)
column selection the single produced record has property map
{lat:"10", lng:"20", val:"5"}, not the claimed {val:"5"}: the coordinate
columns are present in the property bag. -/
theorem C2_counterexample :
    detectCoordinateColumns ["lat", "lng", "val"] = some ("lat", "lng") ∧
    processAllRows [["lat", "lng", "val"], ["10", "20", "5"]]
        ["lat", "lng", "val"] ["lat", "lng", "val"] 0 1 =
      [{ lng := 20, lat := 10,
         properties := [("lat", JsVal.str "10"), ("lng", JsVal.str "20"),
                        ("val", JsVal.str "5")] }] ∧
    ([("lat", JsVal.str "10"), ("lng", JsVal.str "20"), ("val", JsVal.str "5")] : PropMap) ≠
      [("val", JsVal.str "5")] := by
  refine ⟨by decide, ?_, by decide⟩
  rw [processAllRows_eq_filterMap]
  decide

/-- Claim C2 (amended): the detected coordinate columns can never be
deselected — every reachable column selection keeps them — and in point mode
the property bag of every produced record retains an entry for every
selected header, the coordinate columns included, so the example record's
map is {lat:"10", lng:"20", val:"5"} rather than {val:"5"}.  The H3 column,
by contrast, is not pinned: selection toggles guard only the coordinate
column set, which is built empty for H3 files, so toggling the H3 header
removes it from the selection.  Still, the produced H3 property bags contain
no entry for the detected H3 column whatever the selection (provided that
header name occurs only at the H3 column position), because the builder
excludes the H3 column by index. -/
theorem C2_property_retention (headers coordinateColumns selected : List String)
    (ops : List SelOp) (latIndex lngIndex : ℕ) (row : List String) (rec : PointRecord)
    (rows : List (List String)) (h3headers h3selected : List String)
    (h3ColumnIndex : ℕ) (isValidH3Index : String → Bool)
    (h3Name : String) (hrec : H3Record) :
    (coordinateColumns ⊆ headers →
      coordinateColumns ⊆ runSelOps headers coordinateColumns ops) ∧
    (rowRecord headers selected latIndex lngIndex row = some rec →
      ∀ h ∈ headers, h ∈ selected → ∃ v, (h, v) ∈ rec.properties) ∧
    (hrec ∈ buildHexagons rows h3headers h3selected h3ColumnIndex isValidH3Index →
      (∀ p ∈ h3headers.enum, p.2 = h3Name → p.1 = h3ColumnIndex) →
      lookupProp hrec.properties h3Name = none) ∧
    (∀ (sel : List String) (h : String), h ∈ sel →
      h ∉ applySelOp h3headers [] sel (SelOp.toggle h)) := by
  refine ⟨?_, ?_, ?_, ?_⟩
  · intro hsub
    rw [runSelOps]
    have hinv : ∀ (ops' : List SelOp) (sel : List String), coordinateColumns ⊆ sel →
        coordinateColumns ⊆ ops'.foldl (applySelOp headers coordinateColumns) sel := by
      intro ops'
      induction ops' with
      | nil => intro sel h; simpa using h
      | cons op rest ih =>
        intro sel h
        simp only [List.foldl_cons]
        apply ih
        cases op with
        | toggle hd =>
          simp only [applySelOp]
          by_cases h1 : hd ∈ coordinateColumns
          · rw [if_pos h1]; exact h
          · rw [if_neg h1]
            by_cases h2 : hd ∈ sel
            · rw [if_pos h2]
              intro c hc
              rw [List.mem_filter]
              refine ⟨h hc, ?_⟩
              have hcne : c ≠ hd := fun heq => h1 (heq ▸ hc)
              simpa using hcne
            · rw [if_neg h2]
              exact fun c hc => List.mem_cons_of_mem _ (h hc)
        | selectAll => simpa [applySelOp] using hsub
        | deselectAll => simp [applySelOp]
    exact hinv ops headers hsub
  · intro hsome h hmem hsel
    rw [rowRecord_properties headers selected latIndex lngIndex row rec hsome]
    obtain ⟨i, hilt, hih⟩ := List.getElem_of_mem hmem
    refine ⟨JsVal.str ((rowValues row).getD i ""), ?_⟩
    rw [pointProperties, List.mem_filterMap]
    refine ⟨(i, h), ?_, ?_⟩
    · rw [List.mk_mem_enum_iff_getElem?, List.getElem?_eq_getElem hilt, hih]
    · rw [if_pos hsel]
  · intro hmem hunique
    apply lookup_eq_none_of_keys
    intro p hp
    rw [buildHexagons, List.mem_filter] at hmem
    obtain ⟨hmap, _⟩ := hmem
    rw [List.mem_map] at hmap
    obtain ⟨row, _, hbuilt⟩ := hmap
    have hyp : p ∈ h3headers.enum.filterMap (fun q =>
        if q.2 ∈ h3selected ∧ q.1 ≠ h3ColumnIndex
        then some (q.2, JsVal.str ((rowValues row).getD q.1 ""))
        else none) := by
      rw [← hbuilt] at hp
      exact hp
    rw [List.mem_filterMap] at hyp
    obtain ⟨⟨i, hname⟩, hqmem, hq⟩ := hyp
    by_cases hcond : hname ∈ h3selected ∧ i ≠ h3ColumnIndex
    · rw [if_pos hcond] at hq
      have hp1 : p.1 = hname := by
        rw [← Option.some.inj hq]
      rw [hp1]
      intro heq
      exact hcond.2 (hunique (i, hname) hqmem heq)
    · rw [if_neg hcond] at hq
      exact Option.noConfusion hq
  · intro sel h hmem hcontra
    simp only [applySelOp] at hcontra
    rw [if_neg (List.not_mem_nil h), if_pos hmem, List.mem_filter] at hcontra
    simp at hcontra

/-- Witness for claim C2 at concrete inputs: deselect-all keeps the
coordinate columns lat, lng of the header list lat,lng,val; the record
built from row 10,20,5 contains a lat property entry; an H3 record built
from a hex_id,val sheet has no hex_id property; and with the empty pinned
set of an H3 file, toggling hex_id removes it from the selection. -/
theorem C2_property_retention_witness :
    (["lat", "lng"] : List String) ⊆
      runSelOps ["lat", "lng", "val"] ["lat", "lng"] [SelOp.deselectAll] ∧
    (∃ v, ("lat", v) ∈
      ({ lng := 20, lat := 10,
         properties := [("lat", JsVal.str "10"), ("lng", JsVal.str "20"),
                        ("val", JsVal.str "5")] } : PointRecord).properties) ∧
    lookupProp ({ hex := "abc", properties := [("val", JsVal.str "7")] } : H3Record).properties
      "hex_id" = none ∧
    "hex_id" ∉ applySelOp ["hex_id", "val"] [] ["hex_id", "val"] (SelOp.toggle "hex_id") := by
  have h := C2_property_retention ["lat", "lng", "val"] ["lat", "lng"] ["lat", "lng", "val"]
    [SelOp.deselectAll] 0 1 ["10", "20", "5"]
    { lng := 20, lat := 10,
      properties := [("lat", JsVal.str "10"), ("lng", JsVal.str "20"),
                     ("val", JsVal.str "5")] }
    [["hex_id", "val"], ["abc", "7"]] ["hex_id", "val"] ["hex_id", "val"]
    0 (fun _ => true) "hex_id"
    { hex := "abc", properties := [("val", JsVal.str "7")] }
  refine ⟨h.1 (by decide), ?_, ?_, ?_⟩
  · exact h.2.1 (by decide) "lat" (by decide) (by decide)
  · exact h.2.2.1 (by decide) (by decide)
  · exact h.2.2.2 ["hex_id", "val"] "hex_id" (by decide)

end MapViewerGL
namespace MapViewerGL

/-- In a list sorted by ≤, positions read in order give non-decreasing
values. -/
theorem sorted_getD_mono (l : List ℚ) (hs : l.Sorted (fun a b => a ≤ b))
    (i j : ℕ) (hij : i ≤ j) (hj : j < l.length) :
    l.getD i 0 ≤ l.getD j 0 := by
  have hi : i < l.length := lt_of_le_of_lt hij hj
  rw [List.getD_eq_getElem?_getD, List.getD_eq_getElem?_getD,
    List.getElem?_eq_getElem hi, List.getElem?_eq_getElem hj]
  simp only [Option.getD_some]
  rcases lt_or_eq_of_le hij with hlt | heq
  · have := List.pairwise_iff_get.mp hs ⟨i, hi⟩ ⟨j, hj⟩ hlt
    simpa using this
  · subst heq
    exact le_refl _

/-- The ascending sort of the numeric values is sorted. -/
theorem mergeSort_rat_sorted (values : List ℚ) :
    (values.mergeSort (fun a b => a ≤ b)).Sorted (fun a b => a ≤ b) := by
  have h := @List.sorted_mergeSort ℚ (fun a b : ℚ => decide (a ≤ b))
    (fun a b c hab hbc => by
      simp only [decide_eq_true_eq] at *
      exact le_trans hab hbc)
    (fun a b => by
      rcases le_total a b with h | h <;> simp [h])
    values
  exact h.imp (fun hab => by simpa using hab)

/-- Claim C4: the style classifier coerces the (optionally filtered)
records' column values to numbers with non-numeric and missing treated as 0,
sorts them ascending into an array of length L, and takes the N-1 break
values at indices floor((i/N)*L) for i = 1..N-1; for L >= 1 every such index
lies within [0, L-1], and the produced break sequence is non-decreasing (of
length N-1). -/
theorem C4_quantile_breaks (layerFilters : List StoredFilter) (data : List PropMap)
    (column : String) (numClasses : ℕ)
    (hL : 1 ≤ (getNumericValuesForColumn layerFilters data column).length) :
    (∀ i ∈ List.range' 1 (numClasses - 1),
      (i * (getNumericValuesForColumn layerFilters data column).length) / numClasses <
        (getNumericValuesForColumn layerFilters data column).length) ∧
    (updateLayerColorMappingBreaks (getNumericValuesForColumn layerFilters data column)
        numClasses).Sorted (fun a b => a ≤ b) ∧
    (updateLayerColorMappingBreaks (getNumericValuesForColumn layerFilters data column)
        numClasses).length = numClasses - 1 := by
  set values := getNumericValuesForColumn layerFilters data column with hvalues
  have hidx : ∀ i ∈ List.range' 1 (numClasses - 1),
      (i * values.length) / numClasses < values.length := by
    intro i hi
    rw [List.mem_range'] at hi
    obtain ⟨k, hk, hik⟩ := hi
    have hN : 2 ≤ numClasses := by omega
    have hiN : i < numClasses := by omega
    rw [Nat.div_lt_iff_lt_mul (by omega)]
    calc i * values.length < numClasses * values.length := by
          exact (Nat.mul_lt_mul_right (by omega)).mpr hiN
      _ = values.length * numClasses := Nat.mul_comm _ _
  refine ⟨hidx, ?_, ?_⟩
  · rw [updateLayerColorMappingBreaks]
    rw [List.Sorted, List.pairwise_map]
    have hrange : List.Pairwise (fun a b => a < b) (List.range' 1 (numClasses - 1)) :=
      List.pairwise_lt_range' 1 (numClasses - 1)
    apply hrange.imp_of_mem
    intro a b ha hb hab
    have hsorted := mergeSort_rat_sorted values
    have hlen : (values.mergeSort (fun a b => a ≤ b)).length = values.length :=
      List.length_mergeSort values
    apply sorted_getD_mono _ hsorted
    · exact Nat.div_le_div_right (Nat.mul_le_mul_right _ (le_of_lt hab))
    · rw [hlen]
      exact hidx b hb
  · rw [updateLayerColorMappingBreaks]
    simp [List.length_range']

/-- Witness for claim C4: three records with values 3, 1, 2 under no
filters; two classes give the single break at sorted index 1. -/
theorem C4_quantile_breaks_witness :
    (∀ i ∈ List.range' 1 (2 - 1),
      (i * (getNumericValuesForColumn [] [[("v", JsVal.str "3")], [("v", JsVal.str "1")],
          [("v", JsVal.str "2")]] "v").length) / 2 <
        (getNumericValuesForColumn [] [[("v", JsVal.str "3")], [("v", JsVal.str "1")],
          [("v", JsVal.str "2")]] "v").length) ∧
    (updateLayerColorMappingBreaks (getNumericValuesForColumn [] [[("v", JsVal.str "3")],
        [("v", JsVal.str "1")], [("v", JsVal.str "2")]] "v") 2).Sorted (fun a b => a ≤ b) ∧
    (updateLayerColorMappingBreaks (getNumericValuesForColumn [] [[("v", JsVal.str "3")],
        [("v", JsVal.str "1")], [("v", JsVal.str "2")]] "v") 2).length = 2 - 1 :=
  C4_quantile_breaks [] [[("v", JsVal.str "3")], [("v", JsVal.str "1")], [("v", JsVal.str "2")]]
    "v" 2 (by decide)

end MapViewerGL
namespace MapViewerGL

/-- Every break is at most the running maximum of the break list. -/
theorem le_foldr_max (l : List ℚ) : ∀ b ∈ l, b ≤ l.foldr max 0 := by
  induction l with
  | nil => intro b hb; exact absurd hb (List.not_mem_nil b)
  | cons x t ih =>
    intro b hb
    rcases List.mem_cons.mp hb with rfl | hbt
    · exact le_max_left _ _
    · exact le_trans (ih b hbt) (le_max_right _ _)

/-- Claim C10: every named ramp has exactly 5 colors while the class-count
control admits 3 through 10; with breaks of length numClasses - 1 (as the
break computation produces), every bucket index is a valid ramp index when
numClasses <= 5, but for every numClasses >= 6 some value (any value above
all breaks) lands in bucket numClasses - 1, beyond the last ramp index, so
no ramp color exists for it. -/
theorem C10_ramp_bounds :
    (∀ scale, (colorScales scale).length = 5) ∧
    classCountMin = 3 ∧ classCountMax = 10 ∧
    (∀ (cm : ColorMapping) (value : ℚ), cm.numClasses ≤ 5 →
      cm.breaks.length = cm.numClasses - 1 →
      ((colorScales cm.colorScale)[bucketIndexOfValue value cm]?).isSome) ∧
    (∀ cm : ColorMapping, 6 ≤ cm.numClasses → cm.breaks.length = cm.numClasses - 1 →
      ∃ value, (colorScales cm.colorScale)[bucketIndexOfValue value cm]? = none ∧
        getColorForValue value "#ff0000" cm = none) := by
  have hlen : ∀ scale, (colorScales scale).length = 5 := by
    intro scale
    cases scale <;> rfl
  refine ⟨hlen, rfl, rfl, ?_, ?_⟩
  · intro cm value hN hbreaks
    have hidx : bucketIndexOfValue value cm < 5 := by
      rw [bucketIndexOfValue]
      rcases hfind : cm.breaks.findIdx? (fun b => value ≤ b) with _ | i
      · simp only [hfind]
        omega
      · simp only [hfind]
        have := (List.findIdx?_eq_some_iff_findIdx_eq.mp hfind).1
        omega
    rw [List.getElem?_eq_getElem (by rw [hlen]; exact hidx)]
    rfl
  · intro cm hN hbreaks
    refine ⟨cm.breaks.foldr max 0 + 1, ?_⟩
    have hfind : cm.breaks.findIdx? (fun b => cm.breaks.foldr max 0 + 1 ≤ b) = none := by
      apply List.findIdx?_eq_none_iff.mpr
      intro x hx
      simp only [decide_eq_false_iff_not, not_le]
      exact lt_of_le_of_lt (le_foldr_max cm.breaks x hx) (by linarith)
    have hidx : bucketIndexOfValue (cm.breaks.foldr max 0 + 1) cm = cm.numClasses - 1 := by
      rw [bucketIndexOfValue, hfind]
    have hnone : (colorScales cm.colorScale)[bucketIndexOfValue
        (cm.breaks.foldr max 0 + 1) cm]? = none := by
      rw [List.getElem?_eq_none]
      rw [hlen, hidx]
      omega
    refine ⟨hnone, ?_⟩
    rw [getColorForValue]
    have hne : cm.breaks.isEmpty = false := by
      rcases hbr : cm.breaks with _ | ⟨b, t⟩
      · rw [hbr] at hbreaks
        simp at hbreaks
        omega
      · rfl
    rw [hne]
    simp only [Bool.false_eq_true, if_false]
    rw [List.get?_eq_getElem?]
    exact hnone

/-- Witness for claim C10: a five-class mapping with breaks 1,2,3,4 admits a
ramp color for value 10, and a six-class mapping with breaks 1,2,3,4,5 has
no ramp color for some value. -/
theorem C10_ramp_bounds_witness :
    ((colorScales ColorScaleName.YlOrRd)[bucketIndexOfValue 10
      { column := "v", numClasses := 5, breaks := [1, 2, 3, 4],
        colorScale := ColorScaleName.YlOrRd }]?).isSome ∧
    ∃ value, (colorScales ColorScaleName.YlOrRd)[bucketIndexOfValue value
      { column := "v", numClasses := 6, breaks := [1, 2, 3, 4, 5],
        colorScale := ColorScaleName.YlOrRd }]? = none ∧
      getColorForValue value "#ff0000"
        { column := "v", numClasses := 6, breaks := [1, 2, 3, 4, 5],
          colorScale := ColorScaleName.YlOrRd } = none := by
  constructor
  · exact C10_ramp_bounds.2.2.2.1
      { column := "v", numClasses := 5, breaks := [1, 2, 3, 4],
        colorScale := ColorScaleName.YlOrRd } 10 (by decide) (by decide)
  · exact C10_ramp_bounds.2.2.2.2
      { column := "v", numClasses := 6, breaks := [1, 2, 3, 4, 5],
        colorScale := ColorScaleName.YlOrRd } (by decide) (by decide)

end MapViewerGL
namespace MapViewerGL

/-- Comparison evaluation as claim C5 words it: both sides coerced to the
same type before comparing — numbers for numeric columns (through the
parse-based string-to-number coercion the program uses), lower-cased strings
for text columns. -/
def evalComparisonCoerced (column : String) (kind : FilterKind) (op : CompOp) (v : JsVal)
    (props : PropMap) : Bool :=
  match kind with
  | .numeric =>
    let a := jsParseFloat (jsToString (lookupProp props column))
    let b := jsParseFloat (jsValToString v)
    (match op with
     | .eq => optEq a b
     | .lt => optLt a b
     | .le => optLe a b
     | .gt => optLt b a
     | .ge => optLe b a)
  | .text =>
    let a := jsToLower (jsToString (lookupProp props column))
    let b := jsToLower (jsValToString v)
    (match op with
     | .eq => a == b
     | .lt => jsStrLt a b
     | .le => jsStrLe a b
     | .gt => jsStrLt b a
     | .ge => jsStrLe b a)

/-- Claim C5, counterexample.  The modal-compiled predicates do not coerce
both sides: a text = comparison with filter value ABC rejects the record
value abc (no lower-casing), and a numeric = comparison with filter value 5
rejects the record value "5" (strict equality between a string and a
number), while the both-sides-coerced semantics the claim states accepts
both. -/
theorem C5_counterexample :
    evalModalFilter ⟨"name", FilterKind.text, FilterValue.comparison CompOp.eq (JsVal.str "ABC")⟩
        [("name", JsVal.str "abc")] = false ∧
    evalComparisonCoerced "name" FilterKind.text CompOp.eq (JsVal.str "ABC")
        [("name", JsVal.str "abc")] = true ∧
    evalModalFilter ⟨"val", FilterKind.numeric, FilterValue.comparison CompOp.eq (JsVal.num 5)⟩
        [("val", JsVal.str "5")] = false ∧
    evalComparisonCoerced "val" FilterKind.numeric CompOp.eq (JsVal.num 5)
        [("val", JsVal.str "5")] = true := by
  decide

/-- Claim C5 (amended): the predicates compiled at configuration import do
compare only after coercing both sides to the same type — numbers for
numeric columns, lower-cased strings for text columns — for every operator
in {=, <, <=, >, >=} and every property bag; the predicates compiled by the
filter modal do not (see the counterexample: numeric strict equality never
coerces the record value, and text comparison is case-sensitive). -/
theorem C5_import_comparison_coerces (column : String) (kind : FilterKind) (op : CompOp)
    (v : JsVal) (props : PropMap) :
    evalImportFilter ⟨column, kind, FilterValue.comparison op v⟩ props =
      evalComparisonCoerced column kind op v props := by
  cases kind <;> cases op <;> rfl

/-- Claim C6, counterexample.  A predicate evaluated on a property bag that
lacks the target column does not always fail: the missing value stringifies
to the text undefined, so a text less-than z comparison passes, and a text
membership filter whose option fin is a substring of undefined passes. -/
theorem C6_counterexample :
    evalImportFilter ⟨"name", FilterKind.text, FilterValue.comparison CompOp.lt (JsVal.str "z")⟩
        [] = true ∧
    evalModalFilter ⟨"name", FilterKind.text, FilterValue.multiple ["fin"]⟩ [] = true := by
  decide

/-- Claim C6 (amended): a record is in the filtered result iff it satisfies
every filter of the layer (logical AND, the empty filter list passing
everything), and no evaluation throws; a numeric filter evaluated on a bag
lacking its column fails, but a text filter coerces the missing value to the
string undefined and can succeed (see the counterexample). -/
theorem C6_filter_composition :
    (∀ (fs : List StoredFilter) (data : List PropMap) (r : PropMap),
      r ∈ applyFilters fs data ↔ r ∈ data ∧ ∀ f ∈ fs, evalStoredFilter f r = true) ∧
    (∀ data, applyFilters [] data = data) ∧
    (∀ (origin : FilterOrigin) (column : String) (fv : FilterValue) (props : PropMap),
      lookupProp props column = none →
      (∀ vs, fv ≠ FilterValue.multiple vs) →
      evalStoredFilter (origin, ⟨column, FilterKind.numeric, fv⟩) props = false) := by
  refine ⟨?_, ?_, ?_⟩
  · intro fs data r
    rw [applyFilters, List.mem_filter, List.all_eq_true]
  · intro data
    rw [applyFilters]
    simp
  · intro origin column fv props hmiss hwf
    have hund : jsParseFloat (jsToString (none : Option JsVal)) = none := by decide
    cases origin
    · cases fv with
      | range mn mx =>
        simp [evalStoredFilter, evalModalFilter, hmiss, jsToNumber, optLe]
      | comparison op v =>
        cases op <;> simp [evalStoredFilter, evalModalFilter, hmiss, jsToNumber, optLt, optLe]
      | multiple vs => exact absurd rfl (hwf vs)
    · cases fv with
      | range mn mx =>
        simp [evalStoredFilter, evalImportFilter, hmiss, hund, optLe]
      | comparison op v =>
        cases op <;>
          simp [evalStoredFilter, evalImportFilter, hmiss, hund, optLt, optLe, optEq]
      | multiple vs => exact absurd rfl (hwf vs)

/-- Witness for claim C6: a numeric range filter and a numeric comparison
filter, of each compilation origin, reject the empty property bag. -/
theorem C6_filter_composition_witness :
    evalStoredFilter (FilterOrigin.imported,
      ⟨"x", FilterKind.numeric, FilterValue.range 0 1⟩) [] = false ∧
    evalStoredFilter (FilterOrigin.modal,
      ⟨"x", FilterKind.numeric, FilterValue.comparison CompOp.le (JsVal.num 3)⟩) [] = false := by
  constructor
  · exact C6_filter_composition.2.2 FilterOrigin.imported "x" (FilterValue.range 0 1) []
      (by decide) (fun vs h => FilterValue.noConfusion h)
  · exact C6_filter_composition.2.2 FilterOrigin.modal "x"
      (FilterValue.comparison CompOp.le (JsVal.num 3)) []
      (by decide) (fun vs h => FilterValue.noConfusion h)

end MapViewerGL
namespace MapViewerGL

/-- A zero-span extent clamps the zoom at 20: -log2(0) is positive
infinity, whose clamp to [3, 20] is 20. -/
theorem deriveZoom_of_span_zero (b : Bounds) (h : maxSpan b = 0) : deriveZoom b = 20 := by
  rw [deriveZoom, h, zero_mul, jsNegLog2, if_pos rfl, max_eq_right le_top, min_eq_left le_top]

/-- Claim C9: when zero coordinates are found the extent is a null result
rather than an error; the derived center of an extent is the per-axis
midpoint; the derived zoom is clamp(3, 20, -log2(maxSpan * 2.5)); and the
bounding box of the single point feature at latitude 10, longitude 20 has
center (10, 20) and zoom exactly 20, the span being zero. -/
theorem C9_extent_derivation :
    (∀ fc : FeatureCollection,
      calculateBounds fc = none ↔
        fc.features.flatMap (fun f => extractCoordinates f.geometry) = []) ∧
    (∀ b : Bounds, deriveCenter b = ((b.minLat + b.maxLat) / 2, (b.minLng + b.maxLng) / 2)) ∧
    (∀ b : Bounds, maxSpan b ≠ 0 →
      deriveZoom b =
        (((min 20 (max 3 (-(Real.logb 2 ((maxSpan b : ℝ) * (5 / 2))))) : ℝ) : EReal))) ∧
    (∀ b : Bounds, maxSpan b = 0 → deriveZoom b = 20) ∧
    (calculateBounds ⟨[⟨Geometry.point (20, 10), []⟩]⟩ =
        some ⟨10, 10, 20, 20⟩ ∧
      deriveCenter ⟨10, 10, 20, 20⟩ = (10, 20) ∧
      deriveZoom ⟨10, 10, 20, 20⟩ = 20) := by
  refine ⟨?_, ?_, ?_, ?_, ?_, ?_, ?_⟩
  · intro fc
    rw [calculateBounds]
    rcases hc : fc.features.flatMap (fun f => extractCoordinates f.geometry) with _ | ⟨c, cs⟩
    · simp
    · simp
  · intro b
    rfl
  · intro b hne
    rw [deriveZoom, jsNegLog2, if_neg (mul_ne_zero hne (by norm_num))]
    push_cast
    norm_cast
  · intro b h
    exact deriveZoom_of_span_zero b h
  · rw [calculateBounds]
    simp [extractCoordinates, listMin, listMax]
  · rw [deriveCenter]
    norm_num
  · apply deriveZoom_of_span_zero
    rw [maxSpan]
    norm_num

/-- Witness for claim C9: a collection whose only feature is an empty
geometry collection yields a null extent, and the zero-span extent of the
point scenario clamps to zoom 20. -/
theorem C9_extent_derivation_witness :
    calculateBounds ⟨[⟨Geometry.geometryCollection [], []⟩]⟩ = none ∧
    deriveZoom ⟨10, 10, 20, 20⟩ = 20 ∧
    deriveZoom ⟨0, 1, 0, 0⟩ =
      (((min 20 (max 3 (-(Real.logb 2 ((maxSpan ⟨0, 1, 0, 0⟩ : ℝ) * (5 / 2))))) : ℝ) : EReal)) := by
  refine ⟨?_, ?_, ?_⟩
  · exact (C9_extent_derivation.1 ⟨[⟨Geometry.geometryCollection [], []⟩]⟩).mpr (by
      simp [extractCoordinates])
  · exact C9_extent_derivation.2.2.2.2.2.2
  · exact C9_extent_derivation.2.2.1 ⟨0, 1, 0, 0⟩ (by rw [maxSpan]; norm_num)

end MapViewerGL
namespace MapViewerGL

/-- Claim C8, counterexample.  Importing a two-layer configuration into a
fresh session assigns ids 0 and 1 without touching the upload counter; the
next upload then assigns id 1 again, and the session holds two layers with
id 1. -/
theorem C8_counterexample :
    ¬ (runSessionOps [SessionOp.importConfig 2, SessionOp.upload]).layerIds.Nodup := by
  decide

/-- Claim C8 (amended): in any session whose operations are uploads and
removals only (no configuration import), layer ids are unique — no reachable
state holds two layers with the same id — and every id is bounded by the
counter, so a fresh upload can never collide.  Configuration import breaks
the invariant by reassigning index-based ids 0..n-1 while leaving the
counter unchanged (see the counterexample). -/
theorem C8_ids_nodup_without_import (ops : List SessionOp)
    (h : ∀ n, SessionOp.importConfig n ∉ ops) :
    (runSessionOps ops).layerIds.Nodup ∧
      ∀ i ∈ (runSessionOps ops).layerIds, i ≤ (runSessionOps ops).counter := by
  have hinv : ∀ (ops' : List SessionOp) (s : IdSession),
      (∀ n, SessionOp.importConfig n ∉ ops') →
      s.layerIds.Nodup → (∀ i ∈ s.layerIds, i ≤ s.counter) →
      ((ops'.foldl applySessionOp s).layerIds.Nodup ∧
        ∀ i ∈ (ops'.foldl applySessionOp s).layerIds,
          i ≤ (ops'.foldl applySessionOp s).counter) := by
    intro ops'
    induction ops' with
    | nil =>
      intro s _ h1 h2
      exact ⟨h1, h2⟩
    | cons op rest ih =>
      intro s hno h1 h2
      simp only [List.foldl_cons]
      have hno' : ∀ n, SessionOp.importConfig n ∉ rest :=
        fun n hn => hno n (List.mem_cons_of_mem _ hn)
      cases op with
      | upload =>
        apply ih _ hno'
        · simp only [applySessionOp]
          rw [List.nodup_append]
          refine ⟨h1, List.nodup_singleton _, ?_⟩
          intro a ha hb
          have hle := h2 a ha
          have : a = s.counter + 1 := by simpa using hb
          omega
        · intro i hi
          simp only [applySessionOp] at hi ⊢
          rcases List.mem_append.mp hi with hmem | hmem
          · exact le_trans (h2 i hmem) (Nat.le_succ _)
          · have : i = s.counter + 1 := by simpa using hmem
            omega
      | removeLayer j =>
        apply ih _ hno'
        · exact h1.filter _
        · intro i hi
          simp only [applySessionOp] at hi ⊢
          exact h2 i (List.mem_of_mem_filter hi)
      | importConfig n =>
        exact absurd (List.mem_cons_self _ _) (hno n)
  exact hinv ops initialIdSession h List.nodup_nil (by intro i hi; simp [initialIdSession] at hi)

/-- Witness for claim C8: two uploads, a removal and another upload produce
the distinct ids 2 and 3 with counter 3. -/
theorem C8_ids_nodup_without_import_witness :
    (runSessionOps [SessionOp.upload, SessionOp.upload, SessionOp.removeLayer 1,
      SessionOp.upload]).layerIds.Nodup ∧
    ∀ i ∈ (runSessionOps [SessionOp.upload, SessionOp.upload, SessionOp.removeLayer 1,
      SessionOp.upload]).layerIds,
      i ≤ (runSessionOps [SessionOp.upload, SessionOp.upload, SessionOp.removeLayer 1,
        SessionOp.upload]).counter :=
  C8_ids_nodup_without_import
    [SessionOp.upload, SessionOp.upload, SessionOp.removeLayer 1, SessionOp.upload]
    (by intro n hn; simp at hn)

end MapViewerGL
namespace MapViewerGL

/-- A successful association-list lookup exhibits a member. -/
theorem mem_of_lookup_eq_some {α β : Type} [BEq α] [LawfulBEq α] {l : List (α × β)}
    {k : α} {v : β} (h : l.lookup k = some v) : (k, v) ∈ l := by
  induction l with
  | nil => exact Option.noConfusion h
  | cons p t ih =>
    obtain ⟨a, b⟩ := p
    simp only [List.lookup] at h
    rcases hk : (k == a) with _ | _
    · rw [hk] at h
      exact List.mem_cons_of_mem _ (ih h)
    · rw [hk] at h
      have hkv : k = a := eq_of_beq hk
      have hbv : b = v := Option.some.inj h
      rw [hkv, ← hbv]
      exact List.mem_cons_self _ _

/-- The compiled-filter contribution of one configuration layer. -/
def configLayerStoredFilters (lc : ConfigLayer) : Option (List StoredFilter) :=
  match lc.filters with
  | some fs =>
    if fs.length > 0 then some (fs.map (fun info => (FilterOrigin.imported, info))) else none
  | none => none

/-- The filter import pass, expressed through the per-layer contribution. -/
theorem compiledImportFilters_eq (cfg : MapConfiguration) :
    compiledImportFilters cfg =
      cfg.layers.enum.filterMap
        (fun p => (configLayerStoredFilters p.2).map (fun v => (p.1, v))) := by
  rw [compiledImportFilters]
  apply List.filterMap_congr
  intro p _
  cases hf : p.2.filters with
  | none => simp [configLayerStoredFilters, hf]
  | some fs =>
    simp only [configLayerStoredFilters, hf]
    by_cases hl : fs.length > 0
    · rw [if_pos hl, if_pos hl]
      rfl
    · rw [if_neg hl, if_neg hl]
      rfl

/-- Looking up an index below the enumeration offset misses every key. -/
theorem lookup_enumFrom_filterMap_lt {α β : Type} (optPart : α → Option β) :
    ∀ (L : List α) (j i : ℕ), i < j →
      ((List.enumFrom j L).filterMap
        (fun p => (optPart p.2).map (fun v => (p.1, v)))).lookup i = none := by
  intro L
  induction L with
  | nil =>
    intro j i _
    rfl
  | cons x xs ih =>
    intro j i hij
    show (List.filterMap _ ((j, x) :: List.enumFrom (j + 1) xs)).lookup i = none
    rw [List.filterMap_cons]
    cases hx : optPart x with
    | none =>
      simp only [hx, Option.map_none']
      exact ih (j + 1) i (by omega)
    | some v =>
      simp only [hx, Option.map_some']
      have hbeq : (i == j) = false := beq_eq_false_iff_ne.mpr (by omega)
      simp only [List.lookup, hbeq]
      exact ih (j + 1) i (by omega)

/-- Looking up offset-plus-k in the filtered enumeration reads position k of
the underlying list. -/
theorem lookup_enumFrom_filterMap {α β : Type} (optPart : α → Option β) :
    ∀ (L : List α) (j k : ℕ),
      ((List.enumFrom j L).filterMap
        (fun p => (optPart p.2).map (fun v => (p.1, v)))).lookup (j + k) =
        (L[k]?).bind optPart := by
  intro L
  induction L with
  | nil =>
    intro j k
    rfl
  | cons x xs ih =>
    intro j k
    show (List.filterMap _ ((j, x) :: List.enumFrom (j + 1) xs)).lookup (j + k) = _
    rw [List.filterMap_cons]
    cases hx : optPart x with
    | none =>
      simp only [hx, Option.map_none']
      cases k with
      | zero =>
        rw [Nat.add_zero, lookup_enumFrom_filterMap_lt optPart xs (j + 1) j (by omega)]
        simp [hx]
      | succ k' =>
        rw [show j + (k' + 1) = (j + 1) + k' by omega, ih (j + 1) k']
        simp
    | some v =>
      simp only [hx, Option.map_some']
      cases k with
      | zero =>
        have hbeq : (j + 0 == j) = true := beq_iff_eq.mpr (by omega)
        simp only [List.lookup, hbeq]
        simp [hx]
      | succ k' =>
        have hbeq : (j + (k' + 1) == j) = false := beq_eq_false_iff_ne.mpr (by omega)
        simp only [List.lookup, hbeq]
        rw [show j + (k' + 1) = (j + 1) + k' by omega, ih (j + 1) k']
        simp

/-- The active filters imported for index k come from the exported filters
of the k-th layer. -/
theorem importedLayerFilters_export (s : MapSession) (k : ℕ) (l : SessionLayer)
    (hk : s.layers[k]? = some l) :
    importedLayerFilters (exportConfiguration s) k =
      (configLayerStoredFilters (exportedLayer s l)).getD [] := by
  rw [importedLayerFilters, compiledImportFilters_eq]
  have henum : (exportConfiguration s).layers.enum = List.enumFrom 0 (exportConfiguration s).layers := rfl
  rw [henum, show k = 0 + k by omega, lookup_enumFrom_filterMap]
  have hlk : (exportConfiguration s).layers[k]? = some (exportedLayer s l) := by
    show (s.layers.map (exportedLayer s))[k]? = _
    rw [List.getElem?_map, hk]
    rfl
  rw [hlk]
  rfl

end MapViewerGL
namespace MapViewerGL

/-- Claim C1 (amended): for every session whose stored filters are
import-compiled (as they are after any configuration import), exporting and
re-importing reconstructs the view state, the basemap, the same number of
layers, and for every layer position identical filter descriptor contents
and identical effective record counts; and importing any document whose
version field is missing is rejected wholesale with InvalidConfiguration,
leaving the session unchanged.  For sessions holding modal-compiled filters
the effective record counts need not survive the round trip (see the
counterexample), because the import compiler coerces where the modal
compiler does not. -/
theorem C1_round_trip (s : MapSession)
    (himp : ∀ entry ∈ s.activeFilters, ∀ f ∈ entry.2, f.1 = FilterOrigin.imported) :
    (importConfiguration s (exportConfiguration s)).viewState = s.viewState ∧
    (importConfiguration s (exportConfiguration s)).basemap = s.basemap ∧
    (importConfiguration s (exportConfiguration s)).layers.length = s.layers.length ∧
    (∀ (k : ℕ) (l l' : SessionLayer), s.layers[k]? = some l →
      (importConfiguration s (exportConfiguration s)).layers[k]? = some l' →
      (filtersFor (importConfiguration s (exportConfiguration s)) l'.id).map Prod.snd =
          (filtersFor s l.id).map Prod.snd ∧
        (effectiveRecords (importConfiguration s (exportConfiguration s)) l').length =
          (effectiveRecords s l).length) ∧
    (∀ cfg : MapConfiguration, cfg.version = none →
      importConfigurationE cfg = Except.error IngestError.InvalidConfiguration ∧
      importConfiguration s cfg = s) := by
  have hI : importConfiguration s (exportConfiguration s) =
      { layers := (exportConfiguration s).layers.enum.map
          (importedLayer (exportConfiguration s)),
        activeFilters := compiledImportFilters (exportConfiguration s),
        viewState := s.viewState,
        basemap := s.basemap } := by
    rw [importConfiguration]
    rfl
  refine ⟨by rw [hI], by rw [hI], ?_, ?_, ?_⟩
  · rw [hI]
    show ((exportConfiguration s).layers.enum.map _).length = _
    rw [List.length_map, List.enum_length]
    show (s.layers.map (exportedLayer s)).length = _
    rw [List.length_map]
  · intro k l l' hk hk'
    rw [hI] at hk'
    have hEk : (exportConfiguration s).layers[k]? = some (exportedLayer s l) := by
      show (s.layers.map (exportedLayer s))[k]? = _
      rw [List.getElem?_map, hk]
      rfl
    have hl' : l' = importedLayer (exportConfiguration s) (k, exportedLayer s l) := by
      change ((exportConfiguration s).layers.enum.map
        (importedLayer (exportConfiguration s)))[k]? = some l' at hk'
      rw [List.getElem?_map, List.getElem?_enum, hEk] at hk'
      exact (Option.some.inj hk').symm
    subst hl'
    have hid : (importedLayer (exportConfiguration s) (k, exportedLayer s l)).id = k := rfl
    have hFI : filtersFor (importConfiguration s (exportConfiguration s)) k =
        importedLayerFilters (exportConfiguration s) k := by
      rw [hI]
      rfl
    have hfilters := importedLayerFilters_export s k l hk
    rcases hA : s.activeFilters.lookup l.id with _ | fs
    · have hfF : filtersFor s l.id = [] := by
        rw [filtersFor, hA]
        rfl
      have hstored : configLayerStoredFilters (exportedLayer s l) = none := by
        simp [configLayerStoredFilters, exportedLayer, hA]
      have hILF : importedLayerFilters (exportConfiguration s) k = [] := by
        rw [hfilters, hstored]
        rfl
      have hdata : (importedLayer (exportConfiguration s) (k, exportedLayer s l)).data =
          l.data := by
        show (if (importedLayerFilters (exportConfiguration s) k).isEmpty then _ else _) = _
        rw [hILF]
        rfl
      constructor
      · rw [hid, hFI, hILF, hfF]
      · rw [effectiveRecords, effectiveRecords, hid, hFI, hILF, hfF, hdata]
    · rcases fs with _ | ⟨f0, fs'⟩
      · have hfF : filtersFor s l.id = [] := by
          rw [filtersFor, hA]
          rfl
        have hstored : configLayerStoredFilters (exportedLayer s l) = none := by
          simp [configLayerStoredFilters, exportedLayer, hA]
        have hILF : importedLayerFilters (exportConfiguration s) k = [] := by
          rw [hfilters, hstored]
          rfl
        have hdata : (importedLayer (exportConfiguration s) (k, exportedLayer s l)).data =
            l.data := by
          show (if (importedLayerFilters (exportConfiguration s) k).isEmpty then _ else _) = _
          rw [hILF]
          rfl
        constructor
        · rw [hid, hFI, hILF, hfF]
        · rw [effectiveRecords, effectiveRecords, hid, hFI, hILF, hfF, hdata]
      · have hmem : (l.id, f0 :: fs') ∈ s.activeFilters := mem_of_lookup_eq_some hA
        have himpfs : ∀ f ∈ f0 :: fs', f.1 = FilterOrigin.imported := himp _ hmem
        have hfF : filtersFor s l.id = f0 :: fs' := by
          rw [filtersFor, hA]
          rfl
        have hstored : configLayerStoredFilters (exportedLayer s l) = some (f0 :: fs') := by
          simp only [configLayerStoredFilters, exportedLayer, hA, Option.map_some']
          rw [if_pos (by simp)]
          rw [List.map_map]
          congr 1
          conv_rhs => rw [← List.map_id (f0 :: fs')]
          apply List.map_congr_left
          intro f hf
          show (FilterOrigin.imported, f.2) = f
          rw [← himpfs f hf]
        have hILF : importedLayerFilters (exportConfiguration s) k = f0 :: fs' := by
          rw [hfilters, hstored]
          rfl
        have hdata : (importedLayer (exportConfiguration s) (k, exportedLayer s l)).data =
            l.data.filter (fun r => (f0 :: fs').all (fun f => evalStoredFilter f r)) := by
          show (if (importedLayerFilters (exportConfiguration s) k).isEmpty then _
                else (exportedLayer s l).data.filter (fun r =>
                  (importedLayerFilters (exportConfiguration s) k).all
                    (fun f => evalStoredFilter f r))) = _
          rw [hILF]
          rfl
        constructor
        · rw [hid, hFI, hILF, hfF]
        · rw [effectiveRecords, effectiveRecords, hid, hFI, hILF, hfF, hdata]
          rw [applyFilters, applyFilters, List.filter_filter]
          have hff : l.data.filter (fun a =>
              ((f0 :: fs').all (fun f => evalStoredFilter f a)) &&
                ((f0 :: fs').all (fun f => evalStoredFilter f a))) =
              l.data.filter (fun a => (f0 :: fs').all (fun f => evalStoredFilter f a)) :=
            List.filter_congr (fun a _ => Bool.and_self _)
          rw [hff]
  · intro cfg hv
    constructor
    · simp [importConfigurationE, hv]
    · rw [importConfiguration]
      simp [importConfigurationE, hv]

end MapViewerGL
namespace MapViewerGL

/-- A session holding one point layer with one modal-compiled numeric
equality filter, as the filter modal creates when the user applies = 5 on a
CSV-derived string column. -/
def modalFilterSession : MapSession :=
  { layers := [{ id := 1, name := "layer", kind := LayerKind.point, visible := true,
                 color := "#ff0000", opacity := 1, data := [[("val", JsVal.str "5")]],
                 colorMapping := none }],
    activeFilters := [(1, [(FilterOrigin.modal,
      ⟨"val", FilterKind.numeric, FilterValue.comparison CompOp.eq (JsVal.num 5)⟩)])],
    viewState := ⟨0, 0, 3⟩,
    basemap := "light" }

/-- The same session with the same descriptor compiled by the import
compiler instead. -/
def importedFilterSession : MapSession :=
  { layers := [{ id := 1, name := "layer", kind := LayerKind.point, visible := true,
                 color := "#ff0000", opacity := 1, data := [[("val", JsVal.str "5")]],
                 colorMapping := none }],
    activeFilters := [(1, [(FilterOrigin.imported,
      ⟨"val", FilterKind.numeric, FilterValue.comparison CompOp.eq (JsVal.num 5)⟩)])],
    viewState := ⟨0, 0, 3⟩,
    basemap := "light" }

/-- A configuration document lacking the version field. -/
def versionlessConfig : MapConfiguration :=
  { version := none, viewState := ⟨0, 0, 3⟩, basemap := "b", layers := [] }

/-- Claim C1, counterexample.  A session whose single layer holds the record
{val:"5"} under the modal-compiled filter val = 5 has effective record
count 0 (the modal predicate compares the string against the number with
strict equality), but after export and re-import the descriptor is compiled
by the import compiler, which coerces both sides, so the round-tripped
session has effective record count 1: the counts are not identical. -/
theorem C1_counterexample :
    modalFilterSession.layers.map
      (fun l => (effectiveRecords modalFilterSession l).length) = [0] ∧
    (importConfiguration modalFilterSession (exportConfiguration modalFilterSession)).layers.map
      (fun l => (effectiveRecords
        (importConfiguration modalFilterSession (exportConfiguration modalFilterSession))
        l).length) = [1] := by
  decide

/-- Witness for claim C1 on a session with an import-compiled filter: the
round trip keeps the view state, the layer count, the descriptor list and
the effective record count, and a version-less document is rejected with
the session unchanged. -/
theorem C1_round_trip_witness :
    (importConfiguration importedFilterSession
        (exportConfiguration importedFilterSession)).viewState =
      importedFilterSession.viewState ∧
    (importConfiguration importedFilterSession
        (exportConfiguration importedFilterSession)).layers.length =
      importedFilterSession.layers.length ∧
    (filtersFor (importConfiguration importedFilterSession
        (exportConfiguration importedFilterSession))
        ({ id := 0, name := "layer", kind := LayerKind.point, visible := true,
           color := "#ff0000", opacity := 1, data := [[("val", JsVal.str "5")]],
           colorMapping := none } : SessionLayer).id).map Prod.snd =
      (filtersFor importedFilterSession
        ({ id := 1, name := "layer", kind := LayerKind.point, visible := true,
           color := "#ff0000", opacity := 1, data := [[("val", JsVal.str "5")]],
           colorMapping := none } : SessionLayer).id).map Prod.snd ∧
    (effectiveRecords (importConfiguration importedFilterSession
        (exportConfiguration importedFilterSession))
        { id := 0, name := "layer", kind := LayerKind.point, visible := true,
          color := "#ff0000", opacity := 1, data := [[("val", JsVal.str "5")]],
          colorMapping := none }).length =
      (effectiveRecords importedFilterSession
        { id := 1, name := "layer", kind := LayerKind.point, visible := true,
          color := "#ff0000", opacity := 1, data := [[("val", JsVal.str "5")]],
          colorMapping := none }).length ∧
    importConfigurationE versionlessConfig =
      Except.error IngestError.InvalidConfiguration ∧
    importConfiguration importedFilterSession versionlessConfig =
      importedFilterSession := by
  have h := C1_round_trip importedFilterSession (by decide)
  have hk := h.2.2.2.1 0
    { id := 1, name := "layer", kind := LayerKind.point, visible := true,
      color := "#ff0000", opacity := 1, data := [[("val", JsVal.str "5")]],
      colorMapping := none }
    { id := 0, name := "layer", kind := LayerKind.point, visible := true,
      color := "#ff0000", opacity := 1, data := [[("val", JsVal.str "5")]],
      colorMapping := none }
    (by decide) (by decide)
  have hv := h.2.2.2.2 versionlessConfig rfl
  exact ⟨h.1, h.2.2.1, hk.1, hk.2, hv.1, hv.2⟩

end MapViewerGL
